import Mathlib

/-!
Shallow embedding of `src/helper/get_session.py` (Shipping Manager CoPilot
cross-platform session helper) together with proofs about the claims of the
specification: the credential vault (keyring / XOR-obfuscation fallback),
the JSON session store, the remote validator, the Selenium polling login
loop and the orchestration in `main`.

Machine integers are modelled as `Nat` (all byte values carry explicit
`< 256` bounds); fallible Python code is modelled with `Option`; the
environment (keyring, network, clock, dialogs) is passed explicitly.
-/

namespace GetSession

/-! ## Configuration constants (lines 52-76 of the source) -/

def TARGET_DOMAIN : String := "shippingmanager.cc"

def TARGET_COOKIE_NAME : String := "shipping_manager_session"

def SERVICE_NAME : String := "ShippingManagerCoPilot"

/-! ## Byte-level modelling of Python `str.encode()` / `bytes.decode()`

Python encodes a `str` into `bytes` (UTF-8) before XOR-obfuscating it and
decodes the de-obfuscated bytes back.  The program logic only uses that
the pair is an injective encoding with a partial inverse and that every
produced byte is `< 256`; the concrete byte layout never matters.  We model
the codec by a concrete injective byte encoding of strings (three base-256
digits of each character's code point) with those two properties proven. -/

def pyEncodeChars : List Char → List Nat
  | [] => []
  | c :: cs => c.toNat % 256 :: c.toNat / 256 % 256 :: c.toNat / 65536 :: pyEncodeChars cs

def pyDecodeChars : List Nat → Option (List Char)
  | [] => some []
  | b0 :: b1 :: b2 :: rest =>
      (pyDecodeChars rest).map (fun cs => Char.ofNat (b0 + 256 * b1 + 65536 * b2) :: cs)
  | _ => none

/-- Model of Python `str.encode()`: the byte serialization of a string. -/
def pyEncode (s : String) : List Nat := pyEncodeChars s.toList

/-- Model of Python `bytes.decode()`: partial inverse of `pyEncode`;
`none` models a `UnicodeDecodeError`. -/
def pyDecode (l : List Nat) : Option String := (pyDecodeChars l).map List.asString

theorem char_toNat_lt (c : Char) : c.toNat < 1114112 := by
  have h := c.valid
  unfold UInt32.isValidChar Nat.isValidChar at h
  simp only [Char.toNat]
  omega

theorem pyDecodeChars_pyEncodeChars (cs : List Char) :
    pyDecodeChars (pyEncodeChars cs) = some cs := by
  induction cs with
  | nil => rfl
  | cons c cs ih =>
      have hlt := char_toNat_lt c
      simp only [pyEncodeChars, pyDecodeChars, ih, Option.map_some']
      have hval : c.toNat % 256 + 256 * (c.toNat / 256 % 256) + 65536 * (c.toNat / 65536)
          = c.toNat := by omega
      rw [hval, Char.ofNat_toNat]

theorem pyDecode_pyEncode (s : String) : pyDecode (pyEncode s) = some s := by
  unfold pyDecode pyEncode
  rw [pyDecodeChars_pyEncodeChars, Option.map_some']
  exact congrArg some (String.asString_toList s)

theorem pyEncodeChars_lt (cs : List Char) : ∀ b ∈ pyEncodeChars cs, b < 256 := by
  induction cs with
  | nil => intro b hb; simp [pyEncodeChars] at hb
  | cons c cs ih =>
      intro b hb
      have hlt := char_toNat_lt c
      simp only [pyEncodeChars, List.mem_cons] at hb
      rcases hb with h | h | h | h
      · omega
      · omega
      · omega
      · exact ih b h

theorem pyEncode_lt (s : String) : ∀ b ∈ pyEncode s, b < 256 := pyEncodeChars_lt s.toList

/-! ## Base64 (model of Python `base64.b64encode` / `base64.b64decode`)

Standard base64: three bytes become four sextets (with `=` padding),
written with the usual 64-character alphabet. -/

def sextets : List Nat → List Nat
  | b0 :: b1 :: b2 :: rest =>
      b0 / 4 :: ((b0 % 4) * 16 + b1 / 16) :: ((b1 % 16) * 4 + b2 / 64) :: b2 % 64 ::
        sextets rest
  | [b0, b1] => [b0 / 4, (b0 % 4) * 16 + b1 / 16, (b1 % 16) * 4]
  | [b0] => [b0 / 4, (b0 % 4) * 16]
  | [] => []

def unsextets : List Nat → List Nat
  | c0 :: c1 :: c2 :: c3 :: rest =>
      (c0 * 4 + c1 / 16) :: ((c1 % 16) * 16 + c2 / 4) :: ((c2 % 4) * 64 + c3) ::
        unsextets rest
  | [c0, c1, c2] => [c0 * 4 + c1 / 16, (c1 % 16) * 16 + c2 / 4]
  | [c0, c1] => [c0 * 4 + c1 / 16]
  | _ => []

theorem unsextets_sextets (l : List Nat) (hl : ∀ b ∈ l, b < 256) :
    unsextets (sextets l) = l := by
  induction l using sextets.induct with
  | case1 b0 b1 b2 rest ih =>
      have h0 : b0 < 256 := hl b0 (by simp)
      have h1 : b1 < 256 := hl b1 (by simp)
      have h2 : b2 < 256 := hl b2 (by simp)
      have ih2 := ih (fun b hb => hl b (by simp [hb]))
      simp only [sextets, unsextets, ih2, List.cons.injEq, and_true]
      refine ⟨by omega, by omega, by omega⟩
  | case2 b0 b1 =>
      have h0 : b0 < 256 := hl b0 (by simp)
      have h1 : b1 < 256 := hl b1 (by simp)
      simp only [sextets, unsextets, List.cons.injEq, and_true]
      refine ⟨by omega, by omega⟩
  | case3 b0 =>
      have h0 : b0 < 256 := hl b0 (by simp)
      simp only [sextets, unsextets, List.cons.injEq, and_true]
      omega
  | case4 => rfl

theorem sextets_lt (l : List Nat) (hl : ∀ b ∈ l, b < 256) : ∀ c ∈ sextets l, c < 64 := by
  induction l using sextets.induct with
  | case1 b0 b1 b2 rest ih =>
      have h0 : b0 < 256 := hl b0 (by simp)
      have h1 : b1 < 256 := hl b1 (by simp)
      have h2 : b2 < 256 := hl b2 (by simp)
      have ih2 := ih (fun b hb => hl b (by simp [hb]))
      intro c hc
      simp [sextets] at hc
      rcases hc with h | h | h | h | h
      · omega
      · omega
      · omega
      · omega
      · exact ih2 c h
  | case2 b0 b1 =>
      have h0 : b0 < 256 := hl b0 (by simp)
      have h1 : b1 < 256 := hl b1 (by simp)
      intro c hc
      simp [sextets] at hc
      rcases hc with h | h | h <;> omega
  | case3 b0 =>
      have h0 : b0 < 256 := hl b0 (by simp)
      intro c hc
      simp [sextets] at hc
      rcases hc with h | h <;> omega
  | case4 => intro c hc; simp [sextets] at hc

def b64Alphabet : List Char :=
  "ABCDEFGHIJKLMNOPQRSTUVWXYZabcdefghijklmnopqrstuvwxyz0123456789+/".toList

def b64EncodeChar (i : Nat) : Char := b64Alphabet.getD i '='

def b64DecodeChar (c : Char) : Option Nat := b64Alphabet.indexOf? c

def b64PadFor (n : Nat) : List Char :=
  if n % 3 = 1 then ['=', '='] else if n % 3 = 2 then ['='] else []

/-- Model of `base64.b64encode(..).decode()`: bytes to base64 text. -/
def b64Encode (bytes : List Nat) : String :=
  List.asString ((sextets bytes).map b64EncodeChar ++ b64PadFor bytes.length)

/-- Model of `base64.b64decode`: base64 text back to bytes, `none` on
malformed input. -/
def b64Decode (s : String) : Option (List Nat) :=
  ((s.toList.filter (fun c => c ≠ '=')).mapM b64DecodeChar).map unsextets

theorem b64DecodeChar_b64EncodeChar (i : Nat) (hi : i < 64) :
    b64DecodeChar (b64EncodeChar i) = some i := by
  interval_cases i <;> rfl

theorem b64EncodeChar_ne_pad (i : Nat) (hi : i < 64) : b64EncodeChar i ≠ '=' := by
  interval_cases i <;> decide

theorem mapM_decode_map_encode (l : List Nat) (hl : ∀ c ∈ l, c < 64) :
    (l.map b64EncodeChar).mapM b64DecodeChar = some l := by
  induction l with
  | nil => rfl
  | cons c cs ih =>
      have hc : c < 64 := hl c (by simp)
      simp only [List.map_cons, List.mapM_cons, b64DecodeChar_b64EncodeChar c hc,
        ih (fun x hx => hl x (by simp [hx]))]
      rfl

theorem b64Decode_b64Encode (bytes : List Nat) (hb : ∀ b ∈ bytes, b < 256) :
    b64Decode (b64Encode bytes) = some bytes := by
  have hsex := sextets_lt bytes hb
  unfold b64Decode b64Encode
  rw [List.toList_asString]
  have hfilter :
      ((sextets bytes).map b64EncodeChar ++ b64PadFor bytes.length).filter
        (fun c => c ≠ '=') = (sextets bytes).map b64EncodeChar := by
    rw [List.filter_append]
    have h1 : ((sextets bytes).map b64EncodeChar).filter (fun c => c ≠ '=')
        = (sextets bytes).map b64EncodeChar := by
      rw [List.filter_eq_self]
      intro c hc
      rw [List.mem_map] at hc
      obtain ⟨i, hi, rfl⟩ := hc
      simpa using b64EncodeChar_ne_pad i (hsex i hi)
    have h2 : (b64PadFor bytes.length).filter (fun c => c ≠ '=') = [] := by
      unfold b64PadFor
      split
      · simp
      · split <;> simp
    rw [h1, h2, List.append_nil]
  rw [hfilter]
  rw [mapM_decode_map_encode (sextets bytes) hsex]
  simp [unsextets_sextets bytes hb]

/-! ## XOR keystream (lines 117-120 and 146-150 of the source)

Model of `bytes([b ^ key[i % len(key)] for i, b in enumerate(data)])`. -/

def xorKeystream (key : List Nat) : Nat → List Nat → List Nat
  | _, [] => []
  | i, b :: bs => (b ^^^ key.getD (i % key.length) 0) :: xorKeystream key (i + 1) bs

theorem xorKeystream_involutive (key : List Nat) (i : Nat) (l : List Nat) :
    xorKeystream key i (xorKeystream key i l) = l := by
  induction l generalizing i with
  | nil => rfl
  | cons b bs ih =>
      simp only [xorKeystream, ih, List.cons.injEq, and_true]
      exact Nat.xor_cancel_right _ _

theorem xorKeystream_lt (key : List Nat) (hk : ∀ b ∈ key, b < 256) (i : Nat)
    (l : List Nat) (hl : ∀ b ∈ l, b < 256) : ∀ b ∈ xorKeystream key i l, b < 256 := by
  induction l generalizing i with
  | nil => intro b hb; simp [xorKeystream] at hb
  | cons x xs ih =>
      intro b hb
      simp only [xorKeystream, List.mem_cons] at hb
      rcases hb with rfl | hb
      · have hx : x < 256 := hl x (by simp)
        have hkey : key.getD (i % key.length) 0 < 256 := by
          rw [List.getD_eq_getElem?_getD]
          cases hg : key[i % key.length]? with
          | none => simp
          | some v =>
              simp only [Option.getD_some]
              exact hk v (List.getElem?_mem hg)
        have : x ^^^ key.getD (i % key.length) 0 < 2 ^ 8 :=
          Nat.xor_lt_two_pow (n := 8) hx hkey
        simpa using this
      · exact ih (i + 1) (fun y hy => hl y (by simp [hy])) b hb

/-! ## String helpers

Python `str.startswith` and slicing, modelled over the character list of
the string (`String.toList`). -/

def strStartsWith (s pre : String) : Bool := pre.toList.isPrefixOf s.toList

def strDropChars (s : String) (n : Nat) : String := List.asString (s.toList.drop n)

theorem isPrefixOf_append (p t : List Char) : p.isPrefixOf (p ++ t) = true := by
  rw [List.isPrefixOf_iff_prefix]
  exact List.prefix_append _ _

theorem string_toList_append (s t : String) : (s ++ t).toList = s.toList ++ t.toList :=
  String.data_append s t

theorem strStartsWith_append (pre rest : String) :
    strStartsWith (pre ++ rest) pre = true := by
  unfold strStartsWith
  rw [string_toList_append]
  exact isPrefixOf_append _ _

theorem strDropChars_append (pre rest : String) :
    strDropChars (pre ++ rest) pre.toList.length = rest := by
  unfold strDropChars
  rw [string_toList_append, List.drop_left, String.asString_toList]

/-! ## Environment of the credential vault

`keyringAvail` models the `KEYRING_AVAILABLE` import flag, `setFails` and
`getFails` model `keyring.set_password` / `keyring.get_password` raising,
`machineKey` models `sha256(platform.node()+os.getlogin()+platform.system())
.digest()` — `none` when computing it raises (obfuscation failure), and
`vault` is the OS keyring content for `SERVICE_NAME`. -/

structure Env where
  keyringAvail : Bool
  setFails : Bool
  getFails : Bool
  machineKey : Option (List Nat)
  vault : String → Option String

def Env.setPassword (e : Env) (name value : String) : Env :=
  { e with vault := fun n => if n = name then some value else e.vault n }

def Env.deletePassword (e : Env) (name : String) : Env :=
  { e with vault := fun n => if n = name then none else e.vault n }

/-- Account-name derivation at the top of `encrypt_cookie` (lines 97-100):
identifiers containing an underscore are used verbatim, otherwise the
`session_` marker is put in front. -/
def deriveAccountName (user_id_or_account_name : String) : String :=
  if '_' ∈ user_id_or_account_name.toList then user_id_or_account_name
  else "session_" ++ user_id_or_account_name

/-- Model of `encrypt_cookie` (lines 95-123): OS keyring first, XOR
obfuscation fallback, plaintext as last resort.  Returns the updated
environment (keyring contents) and the stored tagged reference. -/
def encrypt_cookie (e : Env) (cookie : String) (user_id_or_account_name : String) :
    Env × String :=
  let account_name := deriveAccountName user_id_or_account_name
  if e.keyringAvail ∧ ¬e.setFails then
    ((e.deletePassword account_name).setPassword account_name cookie,
      "KEYRING:" ++ account_name)
  else
    match e.machineKey with
    | some key => (e, "v1:" ++ b64Encode (xorKeystream key 0 (pyEncode cookie)))
    | none => (e, cookie)

/-- Model of `decrypt_cookie` (lines 126-156): dispatch on the tag of the
stored reference; failures return `none`; untagged values are accepted as
legacy plaintext. -/
def decrypt_cookie (e : Env) (encrypted_data : String) (_user_id : String) :
    Option String :=
  if encrypted_data = "" then none
  else if strStartsWith encrypted_data "KEYRING:" then
    if e.keyringAvail then
      if e.getFails then none
      else e.vault (strDropChars encrypted_data 8)
    else none
  else if strStartsWith encrypted_data "v1:" then
    match e.machineKey with
    | some key =>
        match b64Decode (strDropChars encrypted_data 3) with
        | some encrypted_bytes => pyDecode (xorKeystream key 0 encrypted_bytes)
        | none => none
    | none => none
  else some encrypted_data

/-- Model of `is_encrypted` (lines 159-163). -/
def is_encrypted (data : String) : Bool :=
  strStartsWith data "KEYRING:" || strStartsWith data "v1:"

theorem string_append_ne_empty (s t : String) (h : s.toList ≠ []) : s ++ t ≠ "" := by
  intro heq
  have := congrArg String.toList heq
  rw [string_toList_append] at this
  simp only [String.toList_empty, List.append_eq_nil] at this
  exact h this.1

theorem strStartsWith_keyring_append (name : String) :
    strStartsWith ("KEYRING:" ++ name) "KEYRING:" = true := strStartsWith_append _ _

theorem strStartsWith_v1_not_keyring (x : String) :
    strStartsWith ("v1:" ++ x) "KEYRING:" = false := by
  unfold strStartsWith
  rw [string_toList_append]
  rw [show "KEYRING:".toList = 'K' :: "EYRING:".toList from rfl,
    show "v1:".toList = 'v' :: "1:".toList from rfl]
  simp only [List.cons_append, List.isPrefixOf]
  rw [show (('K' == 'v') = false) from rfl]
  simp

theorem strDropChars_keyring (name : String) :
    strDropChars ("KEYRING:" ++ name) 8 = name := by
  have h := strDropChars_append "KEYRING:" name
  simpa using h

theorem strDropChars_v1 (x : String) : strDropChars ("v1:" ++ x) 3 = x := by
  have h := strDropChars_append "v1:" x
  simpa using h

/-- C1: for every secret string `s` and identity `id`,
`decrypt_cookie (encrypt_cookie s id) id = some s`, both when the OS
keyring backend is available (and its set/get operations succeed) and when
it is absent and the obfuscation fallback is used (the machine-fingerprint
key being a SHA-256 digest: 32 bytes, each below 256), the environment
staying the same between the two calls. -/
theorem C1_decrypt_encrypt_roundtrip (e : Env) (s id : String)
    (h : (e.keyringAvail = true ∧ e.setFails = false ∧ e.getFails = false) ∨
      (e.keyringAvail = false ∧ ∃ key, e.machineKey = some key ∧
        key.length = 32 ∧ ∀ b ∈ key, b < 256)) :
    decrypt_cookie (encrypt_cookie e s id).1 (encrypt_cookie e s id).2 id = some s := by
  rcases h with ⟨havail, hset, hget⟩ | ⟨havail, key, hkey, _hlen, hbytes⟩
  · have henc : encrypt_cookie e s id =
        ((e.deletePassword (deriveAccountName id)).setPassword (deriveAccountName id) s,
          "KEYRING:" ++ deriveAccountName id) := by
      unfold encrypt_cookie
      rw [if_pos (by simp [havail, hset])]
    rw [henc]
    unfold decrypt_cookie
    rw [if_neg (string_append_ne_empty "KEYRING:" _ (by decide)),
      if_pos (strStartsWith_keyring_append _)]
    simp [Env.setPassword, Env.deletePassword, havail, hget, strDropChars_keyring]
  · have henc : encrypt_cookie e s id =
        (e, "v1:" ++ b64Encode (xorKeystream key 0 (pyEncode s))) := by
      unfold encrypt_cookie
      rw [if_neg (by simp [havail]), hkey]
    rw [henc]
    unfold decrypt_cookie
    rw [if_neg (string_append_ne_empty "v1:" _ (by decide)),
      if_neg (by simp [strStartsWith_v1_not_keyring]),
      if_pos (strStartsWith_append "v1:" _), hkey, strDropChars_v1,
      b64Decode_b64Encode _ (xorKeystream_lt key hbytes 0 _ (pyEncode_lt s))]
    simp only []
    rw [xorKeystream_involutive, pyDecode_pyEncode]

/-- Witness for C1: a concrete environment without a keyring, a concrete
32-byte machine key, and a concrete secret and identity. -/
theorem C1_witness :
    decrypt_cookie
      (encrypt_cookie (Env.mk false false false (some (List.replicate 32 7))
        (fun _ => none)) "tok123" "42").1
      (encrypt_cookie (Env.mk false false false (some (List.replicate 32 7))
        (fun _ => none)) "tok123" "42").2 "42" = some "tok123" :=
  C1_decrypt_encrypt_roundtrip _ "tok123" "42"
    (Or.inr ⟨rfl, List.replicate 32 7, rfl, by decide, by decide⟩)

/-! ## Session store (lines 170-225 of the source)

The persisted document is a JSON object: an ordered association list from
stringified account ids to session records with unique keys.  Python dict
assignment replaces the value of an existing key in place (keeping
insertion order) and appends a fresh key at the end. -/

structure SessionRecord where
  cookie : String
  timestamp : Nat
  company_name : String
  login_method : String
  app_platform : Option String
  app_version : Option String
deriving DecidableEq, Repr

abbrev Store : Type := List (String × SessionRecord)

/-- Model of Python `d[k] = v` on a JSON-object association list. -/
def dictInsert {α : Type} : List (String × α) → String → α → List (String × α)
  | [], k, v => [(k, v)]
  | p :: rest, k, v => if p.1 = k then (k, v) :: rest else p :: dictInsert rest k v

/-- Model of Python `d.get(k)`. -/
def dictLookup {α : Type} (d : List (String × α)) (k : String) : Option α :=
  (d.find? (fun p => p.1 = k)).map Prod.snd

/-- Python truthiness of an optional string (`None` and `""` are falsy). -/
def truthy : Option String → Bool
  | none => false
  | some s => s != ""

/-- Python `str(x)` for an optional string (`str(None) = "None"`). -/
def pyStrOfOpt : Option String → String
  | some s => s
  | none => "None"

/-- Possible states of the persisted `sessions.json` document: missing
file, unreadable file, unparseable content, or a parsed mapping. -/
inductive DocState where
  | absent
  | readFails
  | parseFails
  | parsed (st : Store)

/-- Model of `load_sessions` (lines 170-179): any failure (missing file,
IO error while reading, JSON parse error) yields the empty mapping; the
function is total, modelling that `load_sessions` never raises. -/
def load_sessions : DocState → Store
  | .absent => []
  | .readFails => []
  | .parseFails => []
  | .parsed st => st

/-- Cookie argument of `save_session`: either a bare string or the cookie
bundle dictionary produced by `browser_login`. -/
inductive CookieInput where
  | str (s : String)
  | dict (d : List (String × String))
deriving DecidableEq, Repr

/-- Record construction inside `save_session` (lines 187-209): extract the
bundle fields, encrypt the session cookie under the account identity and
the auxiliary fields under `app_platform_<id>` / `app_version_<id>`,
stamp with the current time. -/
def buildSessionRecord (e : Env) (now : Nat) (user_id : String) (cookie : CookieInput)
    (company_name login_method : String) (app_platform app_version : Option String) :
    Env × SessionRecord :=
  let shipping : Option String := match cookie with
    | .dict d => dictLookup d "shipping_manager_session"
    | .str s => some s
  let plat : Option String := match cookie with
    | .dict d => match dictLookup d "app_platform" with
      | some v => some v
      | none => app_platform
    | .str _ => app_platform
  let ver : Option String := match cookie with
    | .dict d => match dictLookup d "app_version" with
      | some v => some v
      | none => app_version
    | .str _ => app_version
  let enc1 := encrypt_cookie e (pyStrOfOpt shipping) user_id
  let base : SessionRecord :=
    { cookie := enc1.2, timestamp := now, company_name := company_name,
      login_method := login_method, app_platform := none, app_version := none }
  let step2 : Env × SessionRecord :=
    if truthy plat then
      let encP := encrypt_cookie enc1.1 (pyStrOfOpt plat) ("app_platform_" ++ user_id)
      (encP.1, { base with app_platform := some encP.2 })
    else (enc1.1, base)
  if truthy ver then
    let encV := encrypt_cookie step2.1 (pyStrOfOpt ver) ("app_version_" ++ user_id)
    (encV.1, { step2.2 with app_version := some encV.2 })
  else step2

/-- Model of `save_session` (lines 182-225) on the successful path: build
the encrypted record and write it over any prior entry for the same
account id, leaving every other entry of the loaded mapping unchanged. -/
def save_session (e : Env) (now : Nat) (st : Store) (user_id : String)
    (cookie : CookieInput) (company_name login_method : String)
    (app_platform app_version : Option String) : Env × Store :=
  let built := buildSessionRecord e now user_id cookie company_name login_method
    app_platform app_version
  (built.1, dictInsert st user_id built.2)

theorem dictLookup_cons {α : Type} (p : String × α) (rest : List (String × α))
    (k : String) :
    dictLookup (p :: rest) k = if p.1 = k then some p.2 else dictLookup rest k := by
  by_cases h : p.1 = k
  · simp [dictLookup, List.find?_cons, h]
  · simp [dictLookup, List.find?_cons, h]

theorem dictLookup_dictInsert_self {α : Type} (d : List (String × α)) (k : String)
    (v : α) : dictLookup (dictInsert d k v) k = some v := by
  induction d with
  | nil => simp [dictInsert, dictLookup, List.find?]
  | cons p rest ih =>
      by_cases h : p.1 = k
      · simp [dictInsert, h, dictLookup_cons]
      · rw [dictInsert, if_neg h, dictLookup_cons, if_neg h]
        exact ih

theorem dictLookup_dictInsert_ne {α : Type} (d : List (String × α)) (k k' : String)
    (v : α) (h : k' ≠ k) : dictLookup (dictInsert d k v) k' = dictLookup d k' := by
  induction d with
  | nil => simp [dictInsert, dictLookup, List.find?, Ne.symm h]
  | cons p rest ih =>
      by_cases hp : p.1 = k
      · subst hp
        rw [dictInsert, if_pos rfl, dictLookup_cons, dictLookup_cons,
          if_neg (fun hc : p.1 = k' => h hc.symm)]
        rw [show (p.1, v).1 = p.1 from rfl, if_neg (fun hc : p.1 = k' => h hc.symm)]
      · rw [dictInsert, if_neg hp, dictLookup_cons, dictLookup_cons]
        by_cases hk : p.1 = k'
        · rw [if_pos hk, if_pos hk]
        · rw [if_neg hk, if_neg hk]
          exact ih

theorem countP_eq_zero_of_not_mem_keys {α : Type} (d : List (String × α)) (k : String)
    (h : k ∉ d.map Prod.fst) : d.countP (fun p => p.1 = k) = 0 := by
  induction d with
  | nil => rfl
  | cons p rest ih =>
      simp only [List.map_cons, List.mem_cons, not_or] at h
      rw [List.countP_cons, ih h.2]
      simp only [decide_eq_true_eq]
      rw [if_neg (fun hc => h.1 hc.symm)]

theorem countP_dictInsert_self {α : Type} (d : List (String × α)) (k : String) (v : α)
    (hN : (d.map Prod.fst).Nodup) :
    (dictInsert d k v).countP (fun p => p.1 = k) = 1 := by
  induction d with
  | nil => simp [dictInsert]
  | cons p rest ih =>
      simp only [List.map_cons, List.nodup_cons] at hN
      by_cases h : p.1 = k
      · rw [dictInsert, if_pos h, List.countP_cons,
          countP_eq_zero_of_not_mem_keys rest k (h ▸ hN.1)]
        simp
      · rw [dictInsert, if_neg h, List.countP_cons, ih hN.2]
        simp [h]

theorem mem_keys_dictInsert {α : Type} (d : List (String × α)) (k : String) (v : α)
    (x : String) (hx : x ∈ (dictInsert d k v).map Prod.fst) :
    x = k ∨ x ∈ d.map Prod.fst := by
  induction d with
  | nil => simpa [dictInsert] using hx
  | cons q rest ih =>
      by_cases hq : q.1 = k
      · rw [dictInsert, if_pos hq] at hx
        simp only [List.map_cons, List.mem_cons] at hx
        rcases hx with hx | hx
        · exact Or.inl hx
        · exact Or.inr (by simp [hx])
      · rw [dictInsert, if_neg hq] at hx
        simp only [List.map_cons, List.mem_cons] at hx
        rcases hx with hx | hx
        · exact Or.inr (by simp [hx])
        · rcases ih hx with hx | hx
          · exact Or.inl hx
          · exact Or.inr (by simp [hx])

theorem keys_dictInsert_nodup {α : Type} (d : List (String × α)) (k : String) (v : α)
    (hN : (d.map Prod.fst).Nodup) : ((dictInsert d k v).map Prod.fst).Nodup := by
  induction d with
  | nil => simp [dictInsert]
  | cons p rest ih =>
      simp only [List.map_cons, List.nodup_cons] at hN
      by_cases h : p.1 = k
      · rw [dictInsert, if_pos h]
        simp only [List.map_cons, List.nodup_cons]
        exact ⟨h ▸ hN.1, hN.2⟩
      · rw [dictInsert, if_neg h]
        simp only [List.map_cons, List.nodup_cons]
        refine ⟨?_, ih hN.2⟩
        intro hmem
        rcases mem_keys_dictInsert rest k v p.1 hmem with hx | hx
        · exact h hx
        · exact hN.1 hx

/-- C8: `load_sessions` is a total function into mappings — it never
raises — and every failure state of the persisted document (file absent,
unreadable, or corrupt/unparseable) yields the empty mapping, while a
parsed document is returned as loaded. -/
theorem C8_load_sessions_total_empty_on_failure :
    load_sessions .absent = [] ∧ load_sessions .readFails = [] ∧
      load_sessions .parseFails = [] ∧ ∀ st, load_sessions (.parsed st) = st :=
  ⟨rfl, rfl, rfl, fun _ => rfl⟩

/-- C5: saving twice under the same account id leaves exactly one record
under that key; its contents are exactly the record built by the second
save (in particular its timestamp is the second timestamp) — the prior
record is overwritten, not merged — and every other key of the store maps
to its original record. -/
theorem C5_save_twice_overwrites (e : Env) (now1 now2 : Nat) (st : Store)
    (uid : String) (c1 c2 : CookieInput) (n1 n2 m1 m2 : String)
    (p1 p2 v1 v2 : Option String) (hN : (st.map Prod.fst).Nodup) :
    ((save_session (save_session e now1 st uid c1 n1 m1 p1 v1).1 now2
        (save_session e now1 st uid c1 n1 m1 p1 v1).2 uid c2 n2 m2 p2 v2).2.countP
        (fun p => p.1 = uid) = 1) ∧
    (dictLookup (save_session (save_session e now1 st uid c1 n1 m1 p1 v1).1 now2
        (save_session e now1 st uid c1 n1 m1 p1 v1).2 uid c2 n2 m2 p2 v2).2 uid =
      some (buildSessionRecord (save_session e now1 st uid c1 n1 m1 p1 v1).1 now2 uid
        c2 n2 m2 p2 v2).2) ∧
    ((buildSessionRecord (save_session e now1 st uid c1 n1 m1 p1 v1).1 now2 uid
        c2 n2 m2 p2 v2).2.timestamp = now2) ∧
    (∀ k, k ≠ uid →
      dictLookup (save_session (save_session e now1 st uid c1 n1 m1 p1 v1).1 now2
        (save_session e now1 st uid c1 n1 m1 p1 v1).2 uid c2 n2 m2 p2 v2).2 k =
        dictLookup st k) := by
  refine ⟨?_, ?_, ?_, ?_⟩
  · exact countP_dictInsert_self _ uid _ (keys_dictInsert_nodup st uid _ hN)
  · exact dictLookup_dictInsert_self _ uid _
  · unfold buildSessionRecord
    simp only
    split <;> split <;> rfl
  · intro k hk
    rw [show (save_session (save_session e now1 st uid c1 n1 m1 p1 v1).1 now2
        (save_session e now1 st uid c1 n1 m1 p1 v1).2 uid c2 n2 m2 p2 v2).2 =
        dictInsert (save_session e now1 st uid c1 n1 m1 p1 v1).2 uid
          (buildSessionRecord (save_session e now1 st uid c1 n1 m1 p1 v1).1 now2 uid
            c2 n2 m2 p2 v2).2 from rfl]
    rw [dictLookup_dictInsert_ne _ uid k _ hk]
    exact dictLookup_dictInsert_ne _ uid k _ hk

/-- Witness for C5: a concrete double save for account `"42"` next to an
unrelated account `"7"`. -/
theorem C5_witness :
    let e0 : Env := Env.mk true false false none (fun _ => none)
    let r7 : SessionRecord := SessionRecord.mk "x" 1 "Other" "browser" none none
    ((save_session (save_session e0 10 [("7", r7)] "42" (.str "a") "Acme" "browser"
        none none).1 20 (save_session e0 10 [("7", r7)] "42" (.str "a") "Acme" "browser"
        none none).2 "42" (.str "b") "Acme" "browser" none none).2.countP
        (fun p => p.1 = "42") = 1) ∧
    (dictLookup (save_session (save_session e0 10 [("7", r7)] "42" (.str "a") "Acme"
        "browser" none none).1 20 (save_session e0 10 [("7", r7)] "42" (.str "a")
        "Acme" "browser" none none).2 "42" (.str "b") "Acme" "browser" none none).2
        "42" = some (buildSessionRecord (save_session e0 10 [("7", r7)] "42"
        (.str "a") "Acme" "browser" none none).1 20 "42" (.str "b") "Acme" "browser"
        none none).2) ∧
    ((buildSessionRecord (save_session e0 10 [("7", r7)] "42" (.str "a") "Acme"
        "browser" none none).1 20 "42" (.str "b") "Acme" "browser" none none).2.timestamp
      = 20) ∧
    (∀ k, k ≠ "42" →
      dictLookup (save_session (save_session e0 10 [("7", r7)] "42" (.str "a") "Acme"
        "browser" none none).1 20 (save_session e0 10 [("7", r7)] "42" (.str "a")
        "Acme" "browser" none none).2 "42" (.str "b") "Acme" "browser" none none).2 k =
        dictLookup [("7", r7)] k) :=
  C5_save_twice_overwrites _ 10 20 _ "42" (.str "a") (.str "b") "Acme" "Acme"
    "browser" "browser" none none none none (by decide)

/-! ## Per-field vault identity derivation (C6)

`save_session` encrypts the three string fields under the identities
`user_id`, `"app_platform_" ++ user_id` and `"app_version_" ++ user_id`
(lines 194, 204, 208), and `encrypt_cookie` then derives the final vault
account name through `deriveAccountName` (lines 97-100). -/

inductive RecordField where
  | cookie
  | platform
  | version
deriving DecidableEq, Repr

/-- Identity string handed to `encrypt_cookie` for each encrypted field of
a record (lines 194, 204, 208 of the source). -/
def fieldIdentity (account_id : String) : RecordField → String
  | .cookie => account_id
  | .platform => "app_platform_" ++ account_id
  | .version => "app_version_" ++ account_id

/-- Final vault account name under which the field's secret is stored. -/
def derivedIdentity (account_id : String) (f : RecordField) : String :=
  deriveAccountName (fieldIdentity account_id f)

theorem string_append_left_cancel (p a b : String) (h : p ++ a = p ++ b) : a = b := by
  have h2 := congrArg String.toList h
  rw [string_toList_append, string_toList_append] at h2
  exact String.toList_inj.mp (List.append_cancel_left h2)

theorem append_ne_of_getElem (p q a b : String) (i : Nat)
    (hip : i < p.toList.length) (hiq : i < q.toList.length)
    (hne : p.toList[i]? ≠ q.toList[i]?) : p ++ a ≠ q ++ b := by
  intro h
  have h2 := congrArg String.toList h
  rw [string_toList_append, string_toList_append] at h2
  have h3 := congrArg (fun l => l[i]?) h2
  simp only at h3
  rw [List.getElem?_append_left hip, List.getElem?_append_left hiq] at h3
  exact hne h3

/-- C6 counterexample: the claim that the derived vault identities are
injective across all `(account_id, field)` pairs is false: the account id
`"app_platform_1"` (which contains an underscore, so it is used verbatim)
shares the derived identity of the `app_platform` field of account `"1"`,
although the two pairs are distinct. -/
theorem C6_counterexample :
    derivedIdentity "app_platform_1" RecordField.cookie =
      derivedIdentity "1" RecordField.platform ∧
    ("app_platform_1", RecordField.cookie) ≠ ("1", RecordField.platform) := by
  constructor
  · decide
  · decide

theorem derivedIdentity_cookie (id : String) (h : '_' ∉ id.toList) :
    derivedIdentity id RecordField.cookie = "session_" ++ id := by
  unfold derivedIdentity fieldIdentity deriveAccountName
  rw [if_neg h]

theorem underscore_mem_app_platform (id : String) :
    '_' ∈ ("app_platform_" ++ id).toList := by
  rw [string_toList_append]
  exact List.mem_append_left _ (by decide)

theorem underscore_mem_app_version (id : String) :
    '_' ∈ ("app_version_" ++ id).toList := by
  rw [string_toList_append]
  exact List.mem_append_left _ (by decide)

theorem derivedIdentity_platform (id : String) :
    derivedIdentity id RecordField.platform = "app_platform_" ++ id := by
  unfold derivedIdentity fieldIdentity deriveAccountName
  rw [if_pos (underscore_mem_app_platform id)]

theorem derivedIdentity_version (id : String) :
    derivedIdentity id RecordField.version = "app_version_" ++ id := by
  unfold derivedIdentity fieldIdentity deriveAccountName
  rw [if_pos (underscore_mem_app_version id)]

/-- C6 amended: restricted to account ids that contain no underscore
(which holds for the numeric user ids the program stores), the derivation
is injective across `(account_id, field)` pairs: distinct pairs receive
distinct vault identities, so the vault namespace does not collide across
fields or accounts. -/
theorem C6_amended_derivedIdentity_injective (id1 id2 : String)
    (f1 f2 : RecordField) (h1 : '_' ∉ id1.toList) (h2 : '_' ∉ id2.toList)
    (hne : (id1, f1) ≠ (id2, f2)) :
    derivedIdentity id1 f1 ≠ derivedIdentity id2 f2 := by
  have hid : id1 ≠ id2 ∨ f1 ≠ f2 := by
    by_contra hc
    push_neg at hc
    exact hne (by rw [hc.1, hc.2])
  cases f1 <;> cases f2
  · rw [derivedIdentity_cookie id1 h1, derivedIdentity_cookie id2 h2]
    intro h
    rcases hid with hid | hid
    · exact hid (string_append_left_cancel _ _ _ h)
    · exact hid rfl
  · rw [derivedIdentity_cookie id1 h1, derivedIdentity_platform id2]
    exact append_ne_of_getElem _ _ _ _ 0 (by decide) (by decide) (by decide)
  · rw [derivedIdentity_cookie id1 h1, derivedIdentity_version id2]
    exact append_ne_of_getElem _ _ _ _ 0 (by decide) (by decide) (by decide)
  · rw [derivedIdentity_platform id1, derivedIdentity_cookie id2 h2]
    exact append_ne_of_getElem _ _ _ _ 0 (by decide) (by decide) (by decide)
  · rw [derivedIdentity_platform id1, derivedIdentity_platform id2]
    intro h
    rcases hid with hid | hid
    · exact hid (string_append_left_cancel _ _ _ h)
    · exact hid rfl
  · rw [derivedIdentity_platform id1, derivedIdentity_version id2]
    exact append_ne_of_getElem _ _ _ _ 4 (by decide) (by decide) (by decide)
  · rw [derivedIdentity_version id1, derivedIdentity_cookie id2 h2]
    exact append_ne_of_getElem _ _ _ _ 0 (by decide) (by decide) (by decide)
  · rw [derivedIdentity_version id1, derivedIdentity_platform id2]
    exact append_ne_of_getElem _ _ _ _ 4 (by decide) (by decide) (by decide)
  · rw [derivedIdentity_version id1, derivedIdentity_version id2]
    intro h
    rcases hid with hid | hid
    · exact hid (string_append_left_cancel _ _ _ h)
    · exact hid rfl

/-- Witness for the amended C6 at two concrete underscore-free ids. -/
theorem C6_amended_witness :
    derivedIdentity "42" RecordField.cookie ≠ derivedIdentity "7" RecordField.platform :=
  C6_amended_derivedIdentity_injective "42" "7" RecordField.cookie RecordField.platform
    (by decide) (by decide) (by decide)

/-! ## Remote validator (lines 228-270 of the source)

The network is modelled as a function from the `Cookie` header that
`validate_session_cookie` would send to the observable outcome of the
`requests.post` call: either a raised exception / unparseable body
(`netFail`) or a status code with the optional `user` object of the JSON
body. -/

structure UserJson where
  id : String
  company_name : Option String
deriving DecidableEq, Repr

inductive ApiResult where
  | netFail
  | resp (status : Nat) (user : Option UserJson)
deriving DecidableEq, Repr

def Remote : Type := String → ApiResult

/-- Cookie header construction (lines 247-251): auxiliary tokens are
appended only when truthy. -/
def cookieHeader (session : String) (plat ver : Option String) : String :=
  TARGET_COOKIE_NAME ++ "=" ++ session ++
    (if truthy plat then "; app_platform=" ++ pyStrOfOpt plat else "") ++
    (if truthy ver then "; app_version=" ++ pyStrOfOpt ver else "")

/-- Outcome of the `requests.post` block (lines 246-270): success means
HTTP 200 with a JSON body holding a `user` object with a truthy `id`. -/
def apiCall (remote : Remote) (session : String) (plat ver : Option String) :
    Option UserJson :=
  match remote (cookieHeader session plat ver) with
  | .netFail => none
  | .resp status user =>
      if status = 200 then
        match user with
        | some u => if u.id != "" then some u else none
        | none => none
      else none

/-- Model of `validate_session_cookie` (lines 228-270). -/
def validate_session_cookie (e : Env) (remote : Remote) (cookie : CookieInput)
    (user_id : Option String) : Option UserJson :=
  match cookie with
  | .dict d =>
      apiCall remote (pyStrOfOpt (dictLookup d "shipping_manager_session"))
        (dictLookup d "app_platform") (dictLookup d "app_version")
  | .str s =>
      if is_encrypted s then
        if truthy user_id then
          match decrypt_cookie e s (pyStrOfOpt user_id) with
          | none => none
          | some c => if c = "" then none else apiCall remote c none none
        else none
      else apiCall remote s none none

/-- C9: a string cookie carrying a recognized encryption tag cannot be
validated without a user id: for every network behaviour, calling
`validate_session_cookie` with `user_id` `None` or empty returns `None`
(the result does not depend on the network, so no remote validation is
attempted). -/
theorem C9_encrypted_cookie_needs_user_id (e : Env) (remote : Remote) (s : String)
    (user_id : Option String) (henc : is_encrypted s = true)
    (huid : truthy user_id = false) :
    validate_session_cookie e remote (.str s) user_id = none := by
  unfold validate_session_cookie
  simp only [henc, huid]
  simp

/-- Witness for C9: a concrete `v1:`-tagged cookie with `user_id = None`
under an arbitrarily successful network. -/
theorem C9_witness :
    validate_session_cookie (Env.mk true false false none (fun _ => none))
      (fun _ => ApiResult.resp 200 (some (UserJson.mk "9" none))) (.str "v1:AAAA")
      none = none :=
  C9_encrypted_cookie_needs_user_id _ _ "v1:AAAA" none (by decide) (by decide)

/-! ## Validation of all stored sessions (lines 273-346 of the source)

`validate_all_sessions` walks the records ordered by descending stored
timestamp (Python `sorted(..., key=timestamp, reverse=True)` — a stable
descending sort, modelled by stable insertion), decrypting and validating
each one and collecting the live ones; `get_expired_sessions_with_methods`
re-walks the store in insertion order collecting the dead ones. -/

structure ValidSession where
  user_id : String
  cookie : String
  company_name : String
  user_data : UserJson
  login_method : String
deriving DecidableEq, Repr

structure ExpiredSession where
  user_id : String
  company_name : String
  login_method : String
deriving DecidableEq, Repr

/-- Stable insertion of a record into a list that is already ordered by
descending timestamp: the new record goes after every earlier record with
a greater-or-equal timestamp. -/
def insertByTs (x : String × SessionRecord) :
    List (String × SessionRecord) → List (String × SessionRecord)
  | [] => [x]
  | y :: ys => if y.2.timestamp < x.2.timestamp then x :: y :: ys else y :: insertByTs x ys

/-- Model of `sorted(sessions.items(), key=timestamp, reverse=True)`
(lines 286-290): the stable descending sort of the store by timestamp. -/
def sortByTsDesc (l : List (String × SessionRecord)) : List (String × SessionRecord) :=
  l.foldl (fun acc x => insertByTs x acc) []

/-- Decryption step at the top of the `validate_all_sessions` loop body
(lines 299-305): tagged cookies are decrypted (`none` models the `continue`
on a missing or falsy plaintext), untagged cookies pass through. -/
def decryptStep (e : Env) (uid : String) (r : SessionRecord) : Option String :=
  if is_encrypted r.cookie then
    match decrypt_cookie e r.cookie uid with
    | none => none
    | some c => if c = "" then none else some c
  else some r.cookie

/-- Per-record body of the `validate_all_sessions` loop (lines 292-318):
decrypt when tagged (skipping the record when decryption fails or yields a
falsy value), validate the plaintext, and collect live sessions. -/
def validate_all_go (e : Env) (remote : Remote) :
    List (String × SessionRecord) → List ValidSession
  | [] => []
  | (uid, r) :: rest =>
      match decryptStep e uid r with
      | none => validate_all_go e remote rest
      | some c =>
          match validate_session_cookie e remote (.str c) (some uid) with
          | some u =>
              ValidSession.mk uid c (u.company_name.getD r.company_name) u
                r.login_method :: validate_all_go e remote rest
          | none => validate_all_go e remote rest

/-- Model of `validate_all_sessions` (lines 273-321). -/
def validate_all_sessions (e : Env) (remote : Remote) (st : Store) :
    List ValidSession :=
  validate_all_go e remote (sortByTsDesc st)

/-- Loop body of `get_expired_sessions_with_methods` (lines 333-344):
validate each stored (still encrypted) cookie and collect the failures,
always labelled with the `browser` method. -/
def get_expired_go (e : Env) (remote : Remote) :
    List (String × SessionRecord) → List ExpiredSession
  | [] => []
  | (uid, r) :: rest =>
      match validate_session_cookie e remote (.str r.cookie) (some uid) with
      | some _ => get_expired_go e remote rest
      | none => ExpiredSession.mk uid r.company_name "browser" :: get_expired_go e remote rest

/-- Model of `get_expired_sessions_with_methods` (lines 324-346). -/
def get_expired_sessions_with_methods (e : Env) (remote : Remote) (st : Store) :
    List ExpiredSession :=
  get_expired_go e remote st

/-- The stub liveness check of a stored record: what
`validate_session_cookie` answers for the stored cookie under its account
id (exactly the check `get_expired_sessions_with_methods` performs). -/
def passes (e : Env) (remote : Remote) (p : String × SessionRecord) : Bool :=
  (validate_session_cookie e remote (.str p.2.cookie) (some p.1)).isSome

/-- Well-formedness of a stored record for claim C3: an encrypted cookie
belongs to a named account and decrypts successfully to a non-empty
plaintext credential (one that does not itself look like a tagged
reference). -/
def recordWf (e : Env) (p : String × SessionRecord) : Prop :=
  is_encrypted p.2.cookie = true →
    p.1 ≠ "" ∧ ∃ pt, decrypt_cookie e p.2.cookie p.1 = some pt ∧ pt ≠ "" ∧
      is_encrypted pt = false

/-- Stored timestamp of the record backing a validated session. -/
def validTs (st : Store) (v : ValidSession) : Nat :=
  match dictLookup st v.user_id with
  | some r => r.timestamp
  | none => 0

theorem insertByTs_perm (x : String × SessionRecord) (l : List (String × SessionRecord)) :
    (insertByTs x l).Perm (x :: l) := by
  induction l with
  | nil => exact List.Perm.refl _
  | cons y ys ih =>
      unfold insertByTs
      by_cases h : y.2.timestamp < x.2.timestamp
      · rw [if_pos h]
      · rw [if_neg h]
        exact (ih.cons y).trans (List.Perm.swap x y ys)

theorem foldl_insertByTs_perm (l acc : List (String × SessionRecord)) :
    (l.foldl (fun a x => insertByTs x a) acc).Perm (acc ++ l) := by
  induction l generalizing acc with
  | nil => simp
  | cons x xs ih =>
      simp only [List.foldl_cons]
      refine (ih (insertByTs x acc)).trans ?_
      have h1 : (insertByTs x acc ++ xs).Perm ((x :: acc) ++ xs) :=
        (insertByTs_perm x acc).append_right xs
      refine h1.trans ?_
      simpa using List.perm_middle.symm

theorem sortByTsDesc_perm (l : List (String × SessionRecord)) :
    (sortByTsDesc l).Perm l := by
  simpa using foldl_insertByTs_perm l []

theorem mem_insertByTs (x z : String × SessionRecord) (l : List (String × SessionRecord)) :
    z ∈ insertByTs x l ↔ z = x ∨ z ∈ l := by
  rw [(insertByTs_perm x l).mem_iff, List.mem_cons]

def TsGe (p q : String × SessionRecord) : Prop := q.2.timestamp ≤ p.2.timestamp

theorem insertByTs_sorted (x : String × SessionRecord) (l : List (String × SessionRecord))
    (hl : l.Pairwise TsGe) : (insertByTs x l).Pairwise TsGe := by
  induction l with
  | nil => simp [insertByTs]
  | cons y ys ih =>
      rw [List.pairwise_cons] at hl
      unfold insertByTs
      by_cases h : y.2.timestamp < x.2.timestamp
      · rw [if_pos h]
        rw [List.pairwise_cons]
        constructor
        · intro z hz
          rcases List.mem_cons.mp hz with rfl | hz
          · exact Nat.le_of_lt h
          · exact Nat.le_trans (hl.1 z hz) (Nat.le_of_lt h)
        · exact List.pairwise_cons.mpr hl
      · rw [if_neg h]
        rw [List.pairwise_cons]
        constructor
        · intro z hz
          rcases (mem_insertByTs x z ys).mp hz with rfl | hz
          · exact Nat.le_of_not_lt h
          · exact hl.1 z hz
        · exact ih hl.2

theorem sortByTsDesc_sorted (l : List (String × SessionRecord)) :
    (sortByTsDesc l).Pairwise TsGe := by
  have hgen : ∀ (m acc : List (String × SessionRecord)), acc.Pairwise TsGe →
      (m.foldl (fun a x => insertByTs x a) acc).Pairwise TsGe := by
    intro m
    induction m with
    | nil => intro acc hacc; simpa using hacc
    | cons x xs ih =>
        intro acc hacc
        simp only [List.foldl_cons]
        exact ih _ (insertByTs_sorted x acc hacc)
  exact hgen l [] (by simp)

theorem validate_step_eq (e : Env) (remote : Remote) (uid : String) (r : SessionRecord)
    (hwf : recordWf e (uid, r)) :
    ∃ c, decryptStep e uid r = some c ∧
      validate_session_cookie e remote (.str c) (some uid) =
        validate_session_cookie e remote (.str r.cookie) (some uid) := by
  by_cases henc : is_encrypted r.cookie = true
  · obtain ⟨huid, pt, hdec, hne, hencpt⟩ := hwf henc
    refine ⟨pt, ?_, ?_⟩
    · unfold decryptStep
      rw [if_pos henc, hdec]
      show (if pt = "" then none else some pt) = some pt
      rw [if_neg hne]
    · unfold validate_session_cookie
      simp only [hencpt, henc]
      have htr : truthy (some uid) = true := by simp [truthy, huid]
      rw [htr]
      simp only [pyStrOfOpt, hdec, if_neg hne]
      simp
  · refine ⟨r.cookie, ?_, rfl⟩
    unfold decryptStep
    rw [if_neg henc]

theorem validate_all_go_length (e : Env) (remote : Remote)
    (l : List (String × SessionRecord)) (hwf : ∀ p ∈ l, recordWf e p) :
    (validate_all_go e remote l).length = l.countP (passes e remote) := by
  induction l with
  | nil => rfl
  | cons p rest ih =>
      obtain ⟨uid, r⟩ := p
      obtain ⟨c, hc, hv⟩ := validate_step_eq e remote uid r (hwf _ (by simp))
      have ihr := ih (fun q hq => hwf q (by simp [hq]))
      rw [List.countP_cons]
      cases hval : validate_session_cookie e remote (.str r.cookie) (some uid) with
      | some u =>
          simp only [validate_all_go, hc, hv, hval]
          simp only [List.length_cons, ihr]
          have : passes e remote (uid, r) = true := by
            unfold passes
            rw [hval]
            rfl
          rw [this]
          simp
      | none =>
          simp only [validate_all_go, hc, hv, hval]
          rw [ihr]
          have : passes e remote (uid, r) = false := by
            unfold passes
            rw [hval]
            rfl
          rw [this]
          simp

theorem get_expired_go_length (e : Env) (remote : Remote)
    (l : List (String × SessionRecord)) :
    (get_expired_go e remote l).length = l.countP (fun p => !(passes e remote p)) := by
  induction l with
  | nil => rfl
  | cons p rest ih =>
      obtain ⟨uid, r⟩ := p
      rw [List.countP_cons]
      cases hval : validate_session_cookie e remote (.str r.cookie) (some uid) with
      | some u =>
          simp only [get_expired_go, hval]
          rw [ih]
          have : passes e remote (uid, r) = true := by
            unfold passes; rw [hval]; rfl
          rw [this]
          simp
      | none =>
          simp only [get_expired_go, hval]
          simp only [List.length_cons, ih]
          have : passes e remote (uid, r) = false := by
            unfold passes; rw [hval]; rfl
          rw [this]
          simp

theorem validate_all_go_ids (e : Env) (remote : Remote)
    (l : List (String × SessionRecord)) (hwf : ∀ p ∈ l, recordWf e p) (k : String) :
    (∃ w ∈ validate_all_go e remote l, w.user_id = k) ↔
      ∃ r, (k, r) ∈ l ∧ passes e remote (k, r) = true := by
  induction l with
  | nil => simp [validate_all_go]
  | cons p rest ih =>
      obtain ⟨uid, r⟩ := p
      obtain ⟨c, hc, hv⟩ := validate_step_eq e remote uid r (hwf _ (by simp))
      have ihr := ih (fun q hq => hwf q (by simp [hq]))
      cases hval : validate_session_cookie e remote (.str r.cookie) (some uid) with
      | some u =>
          simp only [validate_all_go, hc, hv, hval]
          constructor
          · rintro ⟨w, hw, rfl⟩
            rcases List.mem_cons.mp hw with rfl | hw
            · exact ⟨r, by simp, by unfold passes; rw [hval]; rfl⟩
            · obtain ⟨r', hr', hp'⟩ := ihr.mp ⟨w, hw, rfl⟩
              exact ⟨r', by simp [hr'], hp'⟩
          · rintro ⟨r', hr', hp'⟩
            rcases List.mem_cons.mp hr' with heq | hr'
            · rw [Prod.mk.injEq] at heq
              obtain ⟨rfl, rfl⟩ := heq
              refine ⟨ValidSession.mk k c (u.company_name.getD r'.company_name) u
                r'.login_method, by simp, rfl⟩
            · obtain ⟨w, hw, hwk⟩ := ihr.mpr ⟨r', hr', hp'⟩
              exact ⟨w, by simp [hw], hwk⟩
      | none =>
          simp only [validate_all_go, hc, hv, hval]
          rw [ihr]
          constructor
          · rintro ⟨r', hr', hp'⟩
            exact ⟨r', by simp [hr'], hp'⟩
          · rintro ⟨r', hr', hp'⟩
            rcases List.mem_cons.mp hr' with heq | hr'
            · rw [Prod.mk.injEq] at heq
              obtain ⟨rfl, rfl⟩ := heq
              have : passes e remote (k, r') = false := by
                unfold passes; rw [hval]; rfl
              rw [this] at hp'
              exact absurd hp' (by simp)
            · exact ⟨r', hr', hp'⟩

theorem get_expired_go_ids (e : Env) (remote : Remote)
    (l : List (String × SessionRecord)) (k : String) :
    (∃ w ∈ get_expired_go e remote l, w.user_id = k) ↔
      ∃ r, (k, r) ∈ l ∧ passes e remote (k, r) = false := by
  induction l with
  | nil => simp [get_expired_go]
  | cons p rest ih =>
      obtain ⟨uid, r⟩ := p
      cases hval : validate_session_cookie e remote (.str r.cookie) (some uid) with
      | some u =>
          simp only [get_expired_go, hval]
          rw [ih]
          constructor
          · rintro ⟨r', hr', hp'⟩
            exact ⟨r', by simp [hr'], hp'⟩
          · rintro ⟨r', hr', hp'⟩
            rcases List.mem_cons.mp hr' with heq | hr'
            · rw [Prod.mk.injEq] at heq
              obtain ⟨rfl, rfl⟩ := heq
              have : passes e remote (k, r') = true := by
                unfold passes; rw [hval]; rfl
              rw [this] at hp'
              exact absurd hp' (by simp)
            · exact ⟨r', hr', hp'⟩
      | none =>
          simp only [get_expired_go, hval]
          constructor
          · rintro ⟨w, hw, rfl⟩
            rcases List.mem_cons.mp hw with rfl | hw
            · exact ⟨r, by simp, by unfold passes; rw [hval]; rfl⟩
            · obtain ⟨r', hr', hp'⟩ := ih.mp ⟨w, hw, rfl⟩
              exact ⟨r', by simp [hr'], hp'⟩
          · rintro ⟨r', hr', hp'⟩
            rcases List.mem_cons.mp hr' with heq | hr'
            · rw [Prod.mk.injEq] at heq
              obtain ⟨rfl, rfl⟩ := heq
              exact ⟨ExpiredSession.mk k r'.company_name "browser", by simp, rfl⟩
            · obtain ⟨w, hw, hwk⟩ := ih.mpr ⟨r', hr', hp'⟩
              exact ⟨w, by simp [hw], hwk⟩

theorem validate_all_go_source (e : Env) (remote : Remote)
    (l : List (String × SessionRecord)) (w : ValidSession)
    (hw : w ∈ validate_all_go e remote l) : ∃ q ∈ l, w.user_id = q.1 := by
  induction l with
  | nil => simp [validate_all_go] at hw
  | cons p rest ih =>
      obtain ⟨uid, r⟩ := p
      rcases hpt : decryptStep e uid r with _ | c
      · simp only [validate_all_go, hpt] at hw
        obtain ⟨q, hq, hid⟩ := ih hw
        exact ⟨q, by simp [hq], hid⟩
      · rcases hval : validate_session_cookie e remote (.str c) (some uid) with _ | u
        · simp only [validate_all_go, hpt, hval] at hw
          obtain ⟨q, hq, hid⟩ := ih hw
          exact ⟨q, by simp [hq], hid⟩
        · simp only [validate_all_go, hpt, hval] at hw
          rcases List.mem_cons.mp hw with rfl | hw
          · exact ⟨(uid, r), by simp, rfl⟩
          · obtain ⟨q, hq, hid⟩ := ih hw
            exact ⟨q, by simp [hq], hid⟩

theorem dictLookup_eq_of_mem_nodup (st : Store) (hN : (st.map Prod.fst).Nodup)
    (k : String) (r : SessionRecord) (hmem : (k, r) ∈ st) :
    dictLookup st k = some r := by
  induction st with
  | nil => simp at hmem
  | cons p rest ih =>
      simp only [List.map_cons, List.nodup_cons] at hN
      rcases List.mem_cons.mp hmem with heq | hmem
      · rw [← heq, dictLookup_cons, if_pos rfl]
      · rw [dictLookup_cons]
        by_cases hk : p.1 = k
        · exfalso
          apply hN.1
          rw [hk]
          exact List.mem_map_of_mem Prod.fst hmem
        · rw [if_neg hk]
          exact ih hN.2 hmem

theorem mem_nodup_unique (st : Store) (hN : (st.map Prod.fst).Nodup) (k : String)
    (a b : SessionRecord) (ha : (k, a) ∈ st) (hb : (k, b) ∈ st) : a = b := by
  have h1 := dictLookup_eq_of_mem_nodup st hN k a ha
  have h2 := dictLookup_eq_of_mem_nodup st hN k b hb
  rw [h1] at h2
  exact Option.some.inj h2

theorem validate_all_go_pairwise (e : Env) (remote : Remote) (st : Store)
    (hN : (st.map Prod.fst).Nodup) (l : List (String × SessionRecord))
    (hsub : ∀ p ∈ l, p ∈ st) (hsort : l.Pairwise TsGe) :
    ((validate_all_go e remote l).map (validTs st)).Pairwise (fun a b => b ≤ a) := by
  induction l with
  | nil => simp [validate_all_go]
  | cons p rest ih =>
      obtain ⟨uid, r⟩ := p
      rw [List.pairwise_cons] at hsort
      have ihr := ih (fun q hq => hsub q (by simp [hq])) hsort.2
      rcases hpt : decryptStep e uid r with _ | c
      · simp only [validate_all_go, hpt]
        exact ihr
      · rcases hval : validate_session_cookie e remote (.str c) (some uid) with _ | u
        · simp only [validate_all_go, hpt, hval]
          exact ihr
        · simp only [validate_all_go, hpt, hval]
          rw [List.map_cons, List.pairwise_cons]
          refine ⟨?_, ihr⟩
          intro b hb
          rw [List.mem_map] at hb
          obtain ⟨w, hw, rfl⟩ := hb
          obtain ⟨q, hq, hid⟩ := validate_all_go_source e remote rest w hw
          have hts : validTs st w = q.2.timestamp := by
            unfold validTs
            rw [hid, dictLookup_eq_of_mem_nodup st hN q.1 q.2
              (hsub q (by simp [hq]))]
          have htop : validTs st (ValidSession.mk uid c (u.company_name.getD
              r.company_name) u r.login_method) = r.timestamp := by
            unfold validTs
            simp only
            rw [dictLookup_eq_of_mem_nodup st hN uid r (hsub (uid, r) (by simp))]
          rw [hts, htop]
          exact hsort.1 q hq

/-- C3 counterexample: a store of two records with equal timestamps, both
untagged (so every record decrypts successfully) and both passing the stub
liveness check.  The validation yields K = 2 valid and N − K = 0 expired
entries as the claim requires, but the valid list carries the stored
timestamps `[5, 5]`, which is not strictly descending — refuting the
claim's strict-ordering conjunct. -/
theorem C3_counterexample :
    ([("1", SessionRecord.mk "a" 5 "A" "browser" none none),
      ("2", SessionRecord.mk "b" 5 "B" "browser" none none)] : Store).length = 2 ∧
    ([("1", SessionRecord.mk "a" 5 "A" "browser" none none),
      ("2", SessionRecord.mk "b" 5 "B" "browser" none none)] : Store).countP
      (passes (Env.mk false false false none (fun _ => none))
        (fun _ => ApiResult.resp 200 (some (UserJson.mk "9" none)))) = 2 ∧
    (validate_all_sessions (Env.mk false false false none (fun _ => none))
      (fun _ => ApiResult.resp 200 (some (UserJson.mk "9" none)))
      [("1", SessionRecord.mk "a" 5 "A" "browser" none none),
       ("2", SessionRecord.mk "b" 5 "B" "browser" none none)]).map
      (validTs [("1", SessionRecord.mk "a" 5 "A" "browser" none none),
        ("2", SessionRecord.mk "b" 5 "B" "browser" none none)]) = [5, 5] ∧
    ¬ ((validate_all_sessions (Env.mk false false false none (fun _ => none))
      (fun _ => ApiResult.resp 200 (some (UserJson.mk "9" none)))
      [("1", SessionRecord.mk "a" 5 "A" "browser" none none),
       ("2", SessionRecord.mk "b" 5 "B" "browser" none none)]).map
      (validTs [("1", SessionRecord.mk "a" 5 "A" "browser" none none),
        ("2", SessionRecord.mk "b" 5 "B" "browser" none none)])).Pairwise
      (fun a b => b < a) := by
  refine ⟨rfl, by decide, by decide, by decide⟩

/-- C3 amended: for a store with unique keys in which every record
decrypts successfully (to a non-empty untagged plaintext) under a
deterministic stub liveness check, validating all sessions yields exactly
K valid entries and exactly N − K expired entries where K is the number of
records passing the check, every stored record lands in exactly one of the
two lists, and the valid list is ordered by non-increasing (descending,
though not necessarily strictly) stored timestamp. -/
theorem C3_amended_validate_partition (e : Env) (remote : Remote) (st : Store)
    (hN : (st.map Prod.fst).Nodup) (hwf : ∀ p ∈ st, recordWf e p) :
    (validate_all_sessions e remote st).length = st.countP (passes e remote) ∧
    (get_expired_sessions_with_methods e remote st).length =
      st.length - st.countP (passes e remote) ∧
    (∀ k r, (k, r) ∈ st →
      (passes e remote (k, r) = true →
        (∃ w ∈ validate_all_sessions e remote st, w.user_id = k) ∧
        ¬ ∃ w ∈ get_expired_sessions_with_methods e remote st, w.user_id = k) ∧
      (passes e remote (k, r) = false →
        (¬ ∃ w ∈ validate_all_sessions e remote st, w.user_id = k) ∧
        ∃ w ∈ get_expired_sessions_with_methods e remote st, w.user_id = k)) ∧
    ((validate_all_sessions e remote st).map (validTs st)).Pairwise
      (fun a b => b ≤ a) := by
  have hperm := sortByTsDesc_perm st
  have hwfs : ∀ p ∈ sortByTsDesc st, recordWf e p := fun p hp =>
    hwf p (hperm.mem_iff.mp hp)
  refine ⟨?_, ?_, ?_, ?_⟩
  · unfold validate_all_sessions
    rw [validate_all_go_length e remote _ hwfs]
    exact hperm.countP_eq _
  · unfold get_expired_sessions_with_methods
    rw [get_expired_go_length e remote st]
    have hsum := List.length_eq_countP_add_countP (l := st) (passes e remote)
    have hcong : st.countP (fun p => !(passes e remote p)) =
        st.countP (fun a => decide ¬(passes e remote a = true)) := by
      apply List.countP_congr
      intro a _
      cases h : passes e remote a <;> simp [h]
    omega
  · intro k r hmem
    constructor
    · intro hp
      constructor
      · exact (validate_all_go_ids e remote _ hwfs k).mpr
          ⟨r, hperm.mem_iff.mpr hmem, hp⟩
      · rintro ⟨w, hw, hwk⟩
        obtain ⟨r', hr', hp'⟩ := (get_expired_go_ids e remote st k).mp ⟨w, hw, hwk⟩
        rw [mem_nodup_unique st hN k r' r hr' hmem] at hp'
        rw [hp] at hp'
        exact absurd hp' (by simp)
    · intro hp
      constructor
      · rintro ⟨w, hw, hwk⟩
        obtain ⟨r', hr', hp'⟩ := (validate_all_go_ids e remote _ hwfs k).mp
          ⟨w, hw, hwk⟩
        rw [mem_nodup_unique st hN k r' r (hperm.mem_iff.mp hr') hmem] at hp'
        rw [hp] at hp'
        exact absurd hp' (by simp)
      · exact (get_expired_go_ids e remote st k).mpr ⟨r, hmem, hp⟩
  · exact validate_all_go_pairwise e remote st hN _
      (fun p hp => hperm.mem_iff.mp hp) (sortByTsDesc_sorted st)

/-- Witness for the amended C3: two untagged records with distinct
timestamps of which exactly one passes the stub check. -/
theorem C3_amended_witness :
    (validate_all_sessions (Env.mk false false false none (fun _ => none))
      (fun h => if h = "shipping_manager_session=a" then
        ApiResult.resp 200 (some (UserJson.mk "1" none)) else ApiResult.netFail)
      [("1", SessionRecord.mk "a" 9 "A" "browser" none none),
       ("2", SessionRecord.mk "b" 5 "B" "browser" none none)]).length =
      ([("1", SessionRecord.mk "a" 9 "A" "browser" none none),
        ("2", SessionRecord.mk "b" 5 "B" "browser" none none)] : Store).countP
        (passes (Env.mk false false false none (fun _ => none))
          (fun h => if h = "shipping_manager_session=a" then
            ApiResult.resp 200 (some (UserJson.mk "1" none)) else ApiResult.netFail)) ∧
    (get_expired_sessions_with_methods (Env.mk false false false none (fun _ => none))
      (fun h => if h = "shipping_manager_session=a" then
        ApiResult.resp 200 (some (UserJson.mk "1" none)) else ApiResult.netFail)
      [("1", SessionRecord.mk "a" 9 "A" "browser" none none),
       ("2", SessionRecord.mk "b" 5 "B" "browser" none none)]).length =
      ([("1", SessionRecord.mk "a" 9 "A" "browser" none none),
        ("2", SessionRecord.mk "b" 5 "B" "browser" none none)] : Store).length -
      ([("1", SessionRecord.mk "a" 9 "A" "browser" none none),
        ("2", SessionRecord.mk "b" 5 "B" "browser" none none)] : Store).countP
        (passes (Env.mk false false false none (fun _ => none))
          (fun h => if h = "shipping_manager_session=a" then
            ApiResult.resp 200 (some (UserJson.mk "1" none)) else ApiResult.netFail)) ∧
    (∀ k r, (k, r) ∈ ([("1", SessionRecord.mk "a" 9 "A" "browser" none none),
        ("2", SessionRecord.mk "b" 5 "B" "browser" none none)] : Store) →
      (passes (Env.mk false false false none (fun _ => none))
        (fun h => if h = "shipping_manager_session=a" then
          ApiResult.resp 200 (some (UserJson.mk "1" none)) else ApiResult.netFail)
        (k, r) = true →
        (∃ w ∈ validate_all_sessions (Env.mk false false false none (fun _ => none))
          (fun h => if h = "shipping_manager_session=a" then
            ApiResult.resp 200 (some (UserJson.mk "1" none)) else ApiResult.netFail)
          [("1", SessionRecord.mk "a" 9 "A" "browser" none none),
           ("2", SessionRecord.mk "b" 5 "B" "browser" none none)], w.user_id = k) ∧
        ¬ ∃ w ∈ get_expired_sessions_with_methods
          (Env.mk false false false none (fun _ => none))
          (fun h => if h = "shipping_manager_session=a" then
            ApiResult.resp 200 (some (UserJson.mk "1" none)) else ApiResult.netFail)
          [("1", SessionRecord.mk "a" 9 "A" "browser" none none),
           ("2", SessionRecord.mk "b" 5 "B" "browser" none none)], w.user_id = k) ∧
      (passes (Env.mk false false false none (fun _ => none))
        (fun h => if h = "shipping_manager_session=a" then
          ApiResult.resp 200 (some (UserJson.mk "1" none)) else ApiResult.netFail)
        (k, r) = false →
        (¬ ∃ w ∈ validate_all_sessions (Env.mk false false false none (fun _ => none))
          (fun h => if h = "shipping_manager_session=a" then
            ApiResult.resp 200 (some (UserJson.mk "1" none)) else ApiResult.netFail)
          [("1", SessionRecord.mk "a" 9 "A" "browser" none none),
           ("2", SessionRecord.mk "b" 5 "B" "browser" none none)], w.user_id = k) ∧
        ∃ w ∈ get_expired_sessions_with_methods
          (Env.mk false false false none (fun _ => none))
          (fun h => if h = "shipping_manager_session=a" then
            ApiResult.resp 200 (some (UserJson.mk "1" none)) else ApiResult.netFail)
          [("1", SessionRecord.mk "a" 9 "A" "browser" none none),
           ("2", SessionRecord.mk "b" 5 "B" "browser" none none)], w.user_id = k)) ∧
    ((validate_all_sessions (Env.mk false false false none (fun _ => none))
      (fun h => if h = "shipping_manager_session=a" then
        ApiResult.resp 200 (some (UserJson.mk "1" none)) else ApiResult.netFail)
      [("1", SessionRecord.mk "a" 9 "A" "browser" none none),
       ("2", SessionRecord.mk "b" 5 "B" "browser" none none)]).map
      (validTs [("1", SessionRecord.mk "a" 9 "A" "browser" none none),
        ("2", SessionRecord.mk "b" 5 "B" "browser" none none)])).Pairwise
      (fun a b => b ≤ a) :=
  C3_amended_validate_partition _ _ _ (by decide)
    (fun p hp => by
      rcases List.mem_cons.mp hp with rfl | hp
      · intro henc
        exact absurd henc (by decide)
      · rcases List.mem_cons.mp hp with rfl | hp
        · intro henc
          exact absurd henc (by decide)
        · simp at hp)

/-! ## Browser login polling state machine (lines 621-791 of the source)

The Selenium handle is modelled by its observable behaviour over time:
window liveness (`driver.current_url` raising means the window was closed)
and the cookie jar (`none` models `get_cookies` raising).  The clock
advances only through the 2-second sleeps of the loop and the 3-second
pause before final extraction; `urllib.parse.unquote(..).strip()` is the
abstract normalization `norm`.  The loop recursion carries explicit fuel;
fuel exhaustion is proven unreachable below (`pollLoop_no_fuelOut`), which
is the formal content of "the loop never blocks indefinitely". -/

structure Driver where
  alive : Nat → Bool
  jar : Nat → Option (List (String × String))

/-- First cookie named `shipping_manager_session` in the jar, normalized
(lines 653-657). -/
def findTargetCookie (norm : String → String) (cookies : List (String × String)) :
    Option String :=
  match cookies.find? (fun c => c.1 = TARGET_COOKIE_NAME) with
  | some c => some (norm c.2)
  | none => none

inductive PollResult where
  | aborted (t : Nat)
  | deadline (t : Nat)
  | validated (t : Nat) (cookie : String)
  | fuelOut
deriving DecidableEq, Repr

/-- The polling loop of `browser_login` (lines 636-699): bounded by the
absolute 300-second deadline from entry, probing window liveness before
each poll, sleeping 2 seconds between polls, and validating an observed
non-empty cookie with only the session token. -/
def pollLoop (drv : Driver) (remote : Remote) (norm : String → String) (start : Nat) :
    Nat → Nat → PollResult
  | 0, t => if t - start < 300 then .fuelOut else .deadline t
  | fuel + 1, t =>
    if t - start < 300 then
      if drv.alive t = false then .aborted t
      else
        match drv.jar t with
        | none => pollLoop drv remote norm start fuel (t + 2)
        | some cookies =>
          match findTargetCookie norm cookies with
          | some temp =>
            if temp ≠ "" then
              if (apiCall remote temp none none).isSome then .validated t temp
              else pollLoop drv remote norm start fuel (t + 2)
            else pollLoop drv remote norm start fuel (t + 2)
          | none => pollLoop drv remote norm start fuel (t + 2)
    else .deadline t

/-- One step of the final-extraction loop over the re-read jar (lines
756-770): recognized cookie names are collected under their bundle keys
with normalized values. -/
def collectCookie (norm : String → String) (acc : List (String × String))
    (c : String × String) : List (String × String) :=
  if c.1 = TARGET_COOKIE_NAME then dictInsert acc "shipping_manager_session" (norm c.2)
  else if c.1 = "app_platform" then dictInsert acc "app_platform" (norm c.2)
  else if c.1 = "app_version" then dictInsert acc "app_version" (norm c.2)
  else acc

/-- Final cookie extraction after a validated login (lines 751-779):
re-read the whole jar and collect the session and auxiliary cookies; when
re-reading raises (`none`), fall back to the validated token; the session
key is force-inserted if the jar lacked the target cookie. -/
def extractBundle (norm : String → String) (cookie : String)
    (jarResult : Option (List (String × String))) : List (String × String) :=
  match jarResult with
  | none => [("shipping_manager_session", cookie)]
  | some cookies =>
      let collected := cookies.foldl (collectCookie norm) []
      match dictLookup collected "shipping_manager_session" with
      | some _ => collected
      | none => dictInsert collected "shipping_manager_session" cookie

inductive BLResult where
  | closed (t : Nat)
  | timedOut (t : Nat)
  | bundle (t : Nat) (b : List (String × String))
deriving DecidableEq, Repr

/-- Model of `browser_login` (lines 621-791) from entry into the waiting
state: run the polling loop (151 fuel covers the 300-second deadline at
2-second steps, proven sufficient in `pollLoop_no_fuelOut`); a validated
cookie is followed by the 3-second pause and the final jar extraction. -/
def browser_login (drv : Driver) (remote : Remote) (norm : String → String)
    (start : Nat) : BLResult :=
  match pollLoop drv remote norm start 151 start with
  | .aborted t => .closed t
  | .deadline t => .timedOut t
  | .fuelOut => .timedOut 0
  | .validated t cookie => .bundle (t + 3) (extractBundle norm cookie (drv.jar (t + 3)))

theorem pollLoop_no_fuelOut (drv : Driver) (remote : Remote) (norm : String → String)
    (start : Nat) : ∀ fuel t, 302 + start ≤ t + 2 * fuel →
    pollLoop drv remote norm start fuel t ≠ .fuelOut := by
  intro fuel
  induction fuel with
  | zero =>
      intro t ht
      rw [pollLoop, if_neg (by omega)]
      simp
  | succ n ih =>
      intro t ht
      rw [pollLoop]
      by_cases hd : t - start < 300
      · rw [if_pos hd]
        by_cases ha : drv.alive t = false
        · rw [if_pos ha]; simp
        · rw [if_neg ha]
          rcases hj : drv.jar t with _ | cookies
          · simp only [hj]
            exact ih (t + 2) (by omega)
          · simp only [hj]
            rcases hf : findTargetCookie norm cookies with _ | temp
            · simp only [hf]
              exact ih (t + 2) (by omega)
            · simp only [hf]
              by_cases hne : temp ≠ ""
              · rw [if_pos hne]
                by_cases hv : (apiCall remote temp none none).isSome
                · rw [if_pos hv]; simp
                · rw [if_neg hv]
                  exact ih (t + 2) (by omega)
              · rw [if_neg hne]
                exact ih (t + 2) (by omega)
      · rw [if_neg hd]
        simp

theorem pollLoop_timeout (drv : Driver) (remote : Remote) (norm : String → String)
    (start : Nat) (halive : ∀ t, drv.alive t = true)
    (hnv : ∀ t cookies temp, drv.jar t = some cookies →
      findTargetCookie norm cookies = some temp → temp ≠ "" →
      apiCall remote temp none none = none) :
    ∀ fuel t, t ≤ start + 301 → 302 + start ≤ t + 2 * fuel →
    ∃ e, pollLoop drv remote norm start fuel t = .deadline e ∧
      start + 300 ≤ e ∧ e ≤ start + 301 := by
  intro fuel
  induction fuel with
  | zero => intro t h1 h2; omega
  | succ n ih =>
      intro t h1 h2
      rw [pollLoop]
      by_cases hd : t - start < 300
      · rw [if_pos hd, if_neg (by rw [halive t]; simp)]
        rcases hj : drv.jar t with _ | cookies
        · simp only [hj]
          exact ih (t + 2) (by omega) (by omega)
        · simp only [hj]
          rcases hf : findTargetCookie norm cookies with _ | temp
          · simp only [hf]
            exact ih (t + 2) (by omega) (by omega)
          · simp only [hf]
            by_cases hne : temp ≠ ""
            · rw [if_pos hne, hnv t cookies temp hj hf hne]
              simp only [Option.isSome_none, Bool.false_eq_true, if_false]
              exact ih (t + 2) (by omega) (by omega)
            · rw [if_neg hne]
              exact ih (t + 2) (by omega) (by omega)
      · rw [if_neg hd]
        exact ⟨t, rfl, by omega, h1⟩

/-- C4: against a browser window that stays alive while no observed cookie
ever validates (in particular when the target cookie is never exposed),
`browser_login` terminates with the timeout outcome — no cookie returned —
at a time between the 300-second deadline and the deadline plus one
2-second poll interval, counted from entry into the waiting state; failed
validations of an observed cookie do not extend this absolute deadline. -/
theorem C4_browser_login_timeout (drv : Driver) (remote : Remote)
    (norm : String → String) (start : Nat) (halive : ∀ t, drv.alive t = true)
    (hnv : ∀ t cookies temp, drv.jar t = some cookies →
      findTargetCookie norm cookies = some temp → temp ≠ "" →
      apiCall remote temp none none = none) :
    ∃ e, browser_login drv remote norm start = .timedOut e ∧
      start + 300 ≤ e ∧ e ≤ start + 302 := by
  obtain ⟨e, he, h1, h2⟩ := pollLoop_timeout drv remote norm start halive hnv 151 start
    (by omega) (by omega)
  refine ⟨e, ?_, h1, by omega⟩
  unfold browser_login
  rw [he]

/-- Witness for C4: a live driver whose jar never holds any cookie, under
a network that never validates. -/
theorem C4_witness :
    ∃ e, browser_login (Driver.mk (fun _ => true) (fun _ => some []))
      (fun _ => ApiResult.netFail) (fun s => s) 0 = .timedOut e ∧
      0 + 300 ≤ e ∧ e ≤ 0 + 302 :=
  C4_browser_login_timeout (Driver.mk (fun _ => true) (fun _ => some []))
    (fun _ => ApiResult.netFail) (fun s => s) 0 (fun _ => rfl)
    (fun t cookies temp hj hf _ => by
      injection hj with hj
      subst hj
      rw [show findTargetCookie (fun s => s) ([] : List (String × String)) = none
        from rfl] at hf
      simp at hf)

theorem collect_aux (norm : String → String) (key : String)
    (hk : key = "app_platform" ∨ key = "app_version")
    (cookies : List (String × String)) :
    ∀ acc, dictLookup (cookies.foldl (collectCookie norm) acc) key ≠ none →
      dictLookup acc key ≠ none ∨ ∃ c ∈ cookies, c.1 = key := by
  have hks : key ≠ "shipping_manager_session" := by
    rcases hk with rfl | rfl <;> decide
  induction cookies with
  | nil => intro acc h; exact Or.inl h
  | cons c rest ih =>
      intro acc h
      rw [List.foldl_cons] at h
      rcases ih (collectCookie norm acc c) h with h2 | h2
      · unfold collectCookie at h2
        by_cases h1 : c.1 = TARGET_COOKIE_NAME
        · rw [if_pos h1, dictLookup_dictInsert_ne _ _ _ _ hks] at h2
          exact Or.inl h2
        · rw [if_neg h1] at h2
          by_cases hp : c.1 = "app_platform"
          · rw [if_pos hp] at h2
            by_cases hkp : key = "app_platform"
            · exact Or.inr ⟨c, by simp, by rw [hp, hkp]⟩
            · rw [dictLookup_dictInsert_ne _ _ _ _ hkp] at h2
              exact Or.inl h2
          · rw [if_neg hp] at h2
            by_cases hv : c.1 = "app_version"
            · rw [if_pos hv] at h2
              by_cases hkv : key = "app_version"
              · exact Or.inr ⟨c, by simp, by rw [hv, hkv]⟩
              · rw [dictLookup_dictInsert_ne _ _ _ _ hkv] at h2
                exact Or.inl h2
            · rw [if_neg hv] at h2
              exact Or.inl h2
      · obtain ⟨c', hc', hck⟩ := h2
        exact Or.inr ⟨c', by simp [hc'], hck⟩

theorem extractBundle_session (norm : String → String) (cookie : String)
    (jr : Option (List (String × String))) :
    ∃ v, dictLookup (extractBundle norm cookie jr) "shipping_manager_session" = some v := by
  rcases jr with _ | cookies
  · refine ⟨cookie, ?_⟩
    rw [extractBundle, dictLookup_cons, if_pos rfl]
  · simp only [extractBundle]
    rcases hl : dictLookup (cookies.foldl (collectCookie norm) [])
        "shipping_manager_session" with _ | v
    · simp only [hl]
      exact ⟨cookie, dictLookup_dictInsert_self _ _ _⟩
    · simp only [hl]
      exact ⟨v, rfl⟩

theorem extractBundle_aux (norm : String → String) (cookie : String)
    (cookies : List (String × String)) (key : String)
    (hk : key = "app_platform" ∨ key = "app_version")
    (h : dictLookup (extractBundle norm cookie (some cookies)) key ≠ none) :
    ∃ c ∈ cookies, c.1 = key := by
  have hks : key ≠ "shipping_manager_session" := by
    rcases hk with rfl | rfl <;> decide
  simp only [extractBundle] at h
  have hbase : dictLookup (cookies.foldl (collectCookie norm) []) key ≠ none := by
    rcases hl : dictLookup (cookies.foldl (collectCookie norm) [])
        "shipping_manager_session" with _ | v
    · simp only [hl] at h
      rw [dictLookup_dictInsert_ne _ _ _ _ hks] at h
      exact h
    · simp only [hl] at h
      exact h
  rcases collect_aux norm key hk cookies [] hbase with h2 | h2
  · exact absurd rfl h2
  · exact h2

/-- Value of the last cookie named `shipping_manager_session` in the
re-read jar: the final extraction loop assigns the dict key once per
matching jar entry, so the last entry in jar order wins. -/
def lastTargetValue : List (String × String) → Option String
  | [] => none
  | c :: rest =>
      match lastTargetValue rest with
      | some v => some v
      | none => if c.1 = TARGET_COOKIE_NAME then some c.2 else none

theorem collectCookie_session_ne (norm : String → String)
    (acc : List (String × String)) (c : String × String)
    (hc : ¬ c.1 = TARGET_COOKIE_NAME) :
    dictLookup (collectCookie norm acc c) "shipping_manager_session" =
      dictLookup acc "shipping_manager_session" := by
  unfold collectCookie
  rw [if_neg hc]
  by_cases hp : c.1 = "app_platform"
  · rw [if_pos hp, dictLookup_dictInsert_ne _ _ _ _ (by decide)]
  · rw [if_neg hp]
    by_cases hv : c.1 = "app_version"
    · rw [if_pos hv, dictLookup_dictInsert_ne _ _ _ _ (by decide)]
    · rw [if_neg hv]

theorem fold_session_value (norm : String → String)
    (cookies : List (String × String)) : ∀ acc,
    dictLookup (cookies.foldl (collectCookie norm) acc) "shipping_manager_session" =
      match lastTargetValue cookies with
      | some v => some (norm v)
      | none => dictLookup acc "shipping_manager_session" := by
  induction cookies with
  | nil => intro acc; rfl
  | cons c rest ih =>
      intro acc
      rw [List.foldl_cons, ih (collectCookie norm acc c)]
      rcases hl : lastTargetValue rest with _ | v
      · simp only [lastTargetValue, hl]
        by_cases hcT : c.1 = TARGET_COOKIE_NAME
        · rw [if_pos hcT]
          unfold collectCookie
          rw [if_pos hcT]
          exact dictLookup_dictInsert_self _ _ _
        · rw [if_neg hcT]
          exact collectCookie_session_ne norm acc c hcT
      · simp only [lastTargetValue, hl]

/-- The session value stored by a successful final extraction: the
normalized value of the last target cookie of the re-read jar when one is
present, the validated token otherwise. -/
theorem extractBundle_session_value (norm : String → String) (cookie : String)
    (cookies : List (String × String)) :
    dictLookup (extractBundle norm cookie (some cookies)) "shipping_manager_session" =
      some (match lastTargetValue cookies with
        | some v => norm v
        | none => cookie) := by
  simp only [extractBundle]
  have hf := fold_session_value norm cookies []
  rcases hl : lastTargetValue cookies with _ | v
  · rw [hl] at hf
    have hf2 : dictLookup (cookies.foldl (collectCookie norm) [])
        "shipping_manager_session" = none := hf
    simp only [hf2, hl]
    exact dictLookup_dictInsert_self _ _ _
  · rw [hl] at hf
    simp only [hf, hl]

theorem pollLoop_validated_token (drv : Driver) (remote : Remote)
    (norm : String → String) (start : Nat) :
    ∀ fuel t t0 c, pollLoop drv remote norm start fuel t = .validated t0 c →
      (apiCall remote c none none).isSome = true ∧ c ≠ "" := by
  intro fuel
  induction fuel with
  | zero =>
      intro t t0 c h
      rw [pollLoop] at h
      by_cases hd : t - start < 300
      · rw [if_pos hd] at h; cases h
      · rw [if_neg hd] at h; cases h
  | succ n ih =>
      intro t t0 c h
      rw [pollLoop] at h
      by_cases hd : t - start < 300
      · rw [if_pos hd] at h
        by_cases ha : drv.alive t = false
        · rw [if_pos ha] at h; cases h
        · rw [if_neg ha] at h
          rcases hj : drv.jar t with _ | cookies
          · simp only [hj] at h
            exact ih _ _ _ h
          · simp only [hj] at h
            rcases hf : findTargetCookie norm cookies with _ | temp
            · simp only [hf] at h
              exact ih _ _ _ h
            · simp only [hf] at h
              by_cases hne : temp ≠ ""
              · rw [if_pos hne] at h
                by_cases hv : (apiCall remote temp none none).isSome = true
                · rw [if_pos hv] at h
                  injection h with h1 h2
                  subst h2
                  exact ⟨hv, hne⟩
                · rw [if_neg hv] at h
                  exact ih _ _ _ h
              · rw [if_neg hne] at h
                exact ih _ _ _ h
      · rw [if_neg hd] at h; cases h

/-- C10 amended: whenever `browser_login` returns a bundle, there is a
token that the polling loop actually validated against the network, the
bundle is the final extraction for that token, and the bundle always
contains the key `shipping_manager_session`: its value is exactly the
validated token when the end-of-login jar re-read raises, and otherwise
the normalized value of the (last) target cookie of the re-read jar when
one is present and the validated token when the jar lacks the target
cookie; the auxiliary keys `app_platform` / `app_version` are present only
when a cookie of that name was found in the final jar. -/
theorem C10_amended_bundle_contents (drv : Driver) (remote : Remote)
    (norm : String → String) (start t : Nat) (b : List (String × String))
    (h : browser_login drv remote norm start = .bundle t b) :
    (∃ v, dictLookup b "shipping_manager_session" = some v) ∧
    ∃ t0 cookie, t = t0 + 3 ∧
      pollLoop drv remote norm start 151 start = .validated t0 cookie ∧
      (apiCall remote cookie none none).isSome = true ∧ cookie ≠ "" ∧
      b = extractBundle norm cookie (drv.jar t) ∧
      (drv.jar t = none → b = [("shipping_manager_session", cookie)]) ∧
      (∀ cookies, drv.jar t = some cookies →
        dictLookup b "shipping_manager_session" =
          some (match lastTargetValue cookies with
            | some v => norm v
            | none => cookie)) ∧
      (dictLookup b "app_platform" ≠ none →
        ∃ cookies, drv.jar t = some cookies ∧ ∃ c ∈ cookies, c.1 = "app_platform") ∧
      (dictLookup b "app_version" ≠ none →
        ∃ cookies, drv.jar t = some cookies ∧ ∃ c ∈ cookies, c.1 = "app_version") := by
  unfold browser_login at h
  cases hpoll : pollLoop drv remote norm start 151 start with
  | aborted t0 => simp only [hpoll] at h; cases h
  | deadline t0 => simp only [hpoll] at h; cases h
  | fuelOut => simp only [hpoll] at h; cases h
  | validated t0 cookie =>
    simp only [hpoll] at h
    injection h with ht hb
    subst ht
    subst hb
    obtain ⟨hval, hne⟩ := pollLoop_validated_token drv remote norm start 151 start
      t0 cookie hpoll
    refine ⟨extractBundle_session norm cookie _, t0, cookie, rfl, rfl, hval, hne,
      rfl, ?_, ?_, ?_, ?_⟩
    · intro hj
      rw [hj, extractBundle]
    · intro cookies hj
      rw [hj]
      exact extractBundle_session_value norm cookie cookies
    · intro hlook
      rcases hj : drv.jar (t0 + 3) with _ | cookies
      · rw [hj, extractBundle] at hlook
        rw [dictLookup_cons, if_neg (by simp)] at hlook
        exact absurd rfl hlook
      · rw [hj] at hlook
        exact ⟨cookies, rfl, extractBundle_aux norm cookie cookies "app_platform"
          (Or.inl rfl) hlook⟩
    · intro hlook
      rcases hj : drv.jar (t0 + 3) with _ | cookies
      · rw [hj, extractBundle] at hlook
        rw [dictLookup_cons, if_neg (by simp)] at hlook
        exact absurd rfl hlook
      · rw [hj] at hlook
        exact ⟨cookies, rfl, extractBundle_aux norm cookie cookies "app_version"
          (Or.inr rfl) hlook⟩

/-- Witness for the amended C10: a login validated on `tokA` whose final
jar holds the target cookie (value `tokB`) and an `app_platform` cookie;
the conclusion pins the stored session value to the re-read `tokB`. -/
theorem C10_amended_witness :
    (∃ v, dictLookup [("shipping_manager_session", "tokB"), ("app_platform", "ios")]
      "shipping_manager_session" = some v) ∧
    ∃ t0 cookie, 3 = t0 + 3 ∧
      pollLoop (Driver.mk (fun _ => true)
          (fun t => if t = 0 then some [("shipping_manager_session", "tokA")]
            else some [("shipping_manager_session", "tokB"), ("app_platform", "ios")]))
        (fun _ => ApiResult.resp 200 (some (UserJson.mk "5" none))) (fun s => s) 0
        151 0 = .validated t0 cookie ∧
      (apiCall (fun _ => ApiResult.resp 200 (some (UserJson.mk "5" none))) cookie
        none none).isSome = true ∧ cookie ≠ "" ∧
      [("shipping_manager_session", "tokB"), ("app_platform", "ios")] =
        extractBundle (fun s => s) cookie
          ((Driver.mk (fun _ => true)
            (fun t => if t = 0 then some [("shipping_manager_session", "tokA")]
              else some [("shipping_manager_session", "tokB"),
                ("app_platform", "ios")])).jar 3) ∧
      ((Driver.mk (fun _ => true)
          (fun t => if t = 0 then some [("shipping_manager_session", "tokA")]
            else some [("shipping_manager_session", "tokB"),
              ("app_platform", "ios")])).jar 3 = none →
        [("shipping_manager_session", "tokB"), ("app_platform", "ios")] =
          [("shipping_manager_session", cookie)]) ∧
      (∀ cookies, (Driver.mk (fun _ => true)
          (fun t => if t = 0 then some [("shipping_manager_session", "tokA")]
            else some [("shipping_manager_session", "tokB"),
              ("app_platform", "ios")])).jar 3 = some cookies →
        dictLookup [("shipping_manager_session", "tokB"), ("app_platform", "ios")]
          "shipping_manager_session" =
          some (match lastTargetValue cookies with
            | some v => (fun s => s) v
            | none => cookie)) ∧
      (dictLookup [("shipping_manager_session", "tokB"), ("app_platform", "ios")]
          "app_platform" ≠ none →
        ∃ cookies, (Driver.mk (fun _ => true)
          (fun t => if t = 0 then some [("shipping_manager_session", "tokA")]
            else some [("shipping_manager_session", "tokB"),
              ("app_platform", "ios")])).jar 3 = some cookies ∧
          ∃ c ∈ cookies, c.1 = "app_platform") ∧
      (dictLookup [("shipping_manager_session", "tokB"), ("app_platform", "ios")]
          "app_version" ≠ none →
        ∃ cookies, (Driver.mk (fun _ => true)
          (fun t => if t = 0 then some [("shipping_manager_session", "tokA")]
            else some [("shipping_manager_session", "tokB"),
              ("app_platform", "ios")])).jar 3 = some cookies ∧
          ∃ c ∈ cookies, c.1 = "app_version") :=
  C10_amended_bundle_contents
    (Driver.mk (fun _ => true)
      (fun t => if t = 0 then some [("shipping_manager_session", "tokA")]
        else some [("shipping_manager_session", "tokB"), ("app_platform", "ios")]))
    (fun _ => ApiResult.resp 200 (some (UserJson.mk "5" none))) (fun s => s) 0 3
    [("shipping_manager_session", "tokB"), ("app_platform", "ios")] (by decide)

/-- C10 counterexample: the claim promises the bundle carries the
validated session token, but the code re-reads the jar after the 3-second
pause and stores whatever value the target cookie has then.  Here the
cookie rotates from `tok1` (the only value the network validates) to
`tok2` after validation: the returned bundle carries `tok2`, a token the
network never validated. -/
theorem C10_counterexample :
    browser_login
      (Driver.mk (fun _ => true)
        (fun t => if t = 0 then some [("shipping_manager_session", "tok1")]
          else some [("shipping_manager_session", "tok2")]))
      (fun h => if h = "shipping_manager_session=tok1" then
        ApiResult.resp 200 (some (UserJson.mk "5" none)) else ApiResult.netFail)
      (fun s => s) 0 = .bundle 3 [("shipping_manager_session", "tok2")] ∧
    (fun h => if h = "shipping_manager_session=tok1" then
        ApiResult.resp 200 (some (UserJson.mk "5" none)) else ApiResult.netFail)
      (cookieHeader "tok2" none none) = ApiResult.netFail ∧
    "tok2" ≠ "tok1" := by
  refine ⟨by decide, by decide, by decide⟩

/-! ## Orchestration: `main` (lines 798-954 of the source)

The operator dialogs and the browser are external collaborators: each
`show_session_selector` call consumes the next entry of a selector script
(`none` models cancellation / non-zero exit / timeout), and each
`browser_login` call consumes the next entry of a browser script (`none`
models a login that produced no cookie).  Exhausting a script yields the
artificial `ranOut` outcome, which stands for runs longer than the given
stub scripts and is excluded from the claims.  The primary output stream
carries only the printed account id; diagnostics go to stderr and are not
modelled. -/

structure SelResult where
  action : String
  user_id : Option String
deriving DecidableEq, Repr

inductive RefreshOutcome where
  | noCookie
  | wrongAccount
  | refreshed
deriving DecidableEq, Repr

/-- Refresh step of the `refresh_sessions` branch (lines 856-876): run the
browser login, obtain the authenticated identity from the fresh cookie
bundle, and persist it only when that identity equals the selected
account; otherwise report the wrong-account failure and leave both the
store and the keyring untouched. -/
def refresh_attempt (e : Env) (remote : Remote) (now : Nat) (st : Store)
    (selected : String) (renewal : Option (List (String × String))) :
    RefreshOutcome × Env × Store :=
  match renewal with
  | none => (.noCookie, e, st)
  | some bundle =>
      match validate_session_cookie e remote (.dict bundle) none with
      | some u =>
          if u.id = selected then
            let res := save_session e now st u.id (.dict bundle)
              (u.company_name.getD "Unknown") "browser" none none
            (.refreshed, res.1, res.2)
          else (.wrongAccount, e, st)
      | none => (.wrongAccount, e, st)

inductive MainOutcome where
  | ranOut
  | cancelled
  | success (account_id : String)
  | failure
deriving DecidableEq, Repr

/-- Process exit code of each outcome: cancellation of the session
selection exits 0 (line 816), success exits 0 after printing the account
id (lines 900-901 and 951-952), every other failure exits 1 (lines 894,
910, 922, 934). -/
def exitCode : MainOutcome → Option Nat
  | .success _ => some 0
  | .cancelled => some 0
  | .failure => some 1
  | .ranOut => none

/-- Content of the primary output stream for each outcome: only a success
prints the chosen account id to stdout. -/
def stdoutOut : MainOutcome → Option String
  | .success id => some id
  | _ => none

/-- STEP 2 and 3 of `main` (lines 912-954): unconditional fresh browser
login, validation of the obtained bundle, persistence, and success with
the new account id; a missing cookie or failed validation exits with
failure. -/
def browserFinish (e : Env) (remote : Remote) (now : Nat) (st : Store) :
    List (Option (List (String × String))) → MainOutcome × Env × Store
  | [] => (.ranOut, e, st)
  | rb :: _ =>
    match rb with
    | none => (.failure, e, st)
    | some bundle =>
      match validate_session_cookie e remote (.dict bundle) none with
      | none => (.failure, e, st)
      | some u =>
        let res := save_session e now st u.id (.dict bundle)
          (u.company_name.getD "Unknown") "browser" none none
        (.success u.id, res.1, res.2)

/-- The selection loop of `main` (lines 808-910): present the valid and
expired accounts, then act on the choice — direct use of a session, a
refresh round (with revalidation of the whole store afterwards), a break
into a fresh login, or cancellation. -/
def mainLoop (e : Env) (remote : Remote) (now : Nat) :
    List (Option SelResult) → List (Option (List (String × String))) →
    List ValidSession → List ExpiredSession → Store → MainOutcome × Env × Store
  | script, bl, valid, expired, st =>
    if valid.length = 0 ∧ expired.length = 0 then browserFinish e remote now st bl
    else
      match script with
      | [] => (.ranOut, e, st)
      | sel :: script1 =>
        match sel with
        | none => (.cancelled, e, st)
        | some r =>
          if r.action = "new_session" then browserFinish e remote now st bl
          else if r.action = "refresh_sessions" then
            if (valid.map ValidSession.user_id ++
                expired.map ExpiredSession.user_id).isEmpty then
              mainLoop e remote now script1 bl valid expired st
            else
              match script1 with
              | [] => (.ranOut, e, st)
              | rsel :: script2 =>
                match rsel with
                | none => mainLoop e remote now script2 bl valid expired st
                | some rr =>
                  if rr.action = "use_session" then
                    match rr.user_id with
                    | some sid =>
                      if (valid.map ValidSession.user_id ++
                          expired.map ExpiredSession.user_id).contains sid then
                        match bl with
                        | [] => (.ranOut, e, st)
                        | rb :: bl1 =>
                          let res := refresh_attempt e remote now st sid rb
                          mainLoop res.2.1 remote now script2 bl1
                            (validate_all_sessions res.2.1 remote res.2.2)
                            (get_expired_sessions_with_methods res.2.1 remote res.2.2)
                            res.2.2
                      else mainLoop e remote now script2 bl valid expired st
                    | none => mainLoop e remote now script2 bl valid expired st
                  else mainLoop e remote now script2 bl valid expired st
          else if r.action = "use_session" then
            match valid.find? (fun s => s.user_id = pyStrOfOpt r.user_id) with
            | some _ => (.success (pyStrOfOpt r.user_id), e, st)
            | none => (.failure, e, st)
          else (.failure, e, st)

/-- Model of `main` run as a process (lines 798-954): validate the stored
sessions once and enter the selection loop. -/
def main (e : Env) (remote : Remote) (now : Nat) (st : Store)
    (script : List (Option SelResult)) (bl : List (Option (List (String × String)))) :
    MainOutcome × Env × Store :=
  mainLoop e remote now script bl (validate_all_sessions e remote st)
    (get_expired_sessions_with_methods e remote st) st

/-- C2: in the refresh flow, when the browser login yields no user data or
authenticates an account different from the selected one, the attempt
reports the wrong-account failure and leaves the keyring and the session
store completely unchanged (`save_session` has no observable effect);
and a record is persisted exactly when the authenticated identity equals
the selected account id, in which case the new state is precisely the
`save_session` of the fresh bundle under the authenticated id. -/
theorem C2_refresh_account_mismatch (e : Env) (remote : Remote) (now : Nat)
    (st : Store) (selected : String) (renewal : Option (List (String × String))) :
    (∀ bundle, renewal = some bundle →
      (validate_session_cookie e remote (.dict bundle) none = none ∨
        ∃ u, validate_session_cookie e remote (.dict bundle) none = some u ∧
          u.id ≠ selected) →
      refresh_attempt e remote now st selected renewal = (.wrongAccount, e, st)) ∧
    (∀ o e2 st2, refresh_attempt e remote now st selected renewal = (o, e2, st2) →
      (o ≠ .refreshed → e2 = e ∧ st2 = st) ∧
      (o = .refreshed → ∃ bundle u, renewal = some bundle ∧
        validate_session_cookie e remote (.dict bundle) none = some u ∧
        u.id = selected ∧
        e2 = (save_session e now st u.id (.dict bundle)
          (u.company_name.getD "Unknown") "browser" none none).1 ∧
        st2 = (save_session e now st u.id (.dict bundle)
          (u.company_name.getD "Unknown") "browser" none none).2)) := by
  constructor
  · rintro bundle rfl hmis
    simp only [refresh_attempt]
    rcases hv : validate_session_cookie e remote (.dict bundle) none with _ | u
    · simp [hv]
    · simp only [hv]
      rcases hmis with hnone | ⟨u2, hu2, hne⟩
      · rw [hv] at hnone
        cases hnone
      · rw [hv] at hu2
        injection hu2 with hu2
        subst hu2
        rw [if_neg hne]
  · intro o e2 st2 h
    rcases renewal with _ | bundle
    · simp only [refresh_attempt] at h
      rw [Prod.mk.injEq, Prod.mk.injEq] at h
      obtain ⟨h1, h2, h3⟩ := h
      subst h1
      subst h2
      subst h3
      exact ⟨fun _ => ⟨rfl, rfl⟩, fun hc => absurd hc (by simp)⟩
    · simp only [refresh_attempt] at h
      rcases hv : validate_session_cookie e remote (.dict bundle) none with _ | u
      · simp only [hv] at h
        rw [Prod.mk.injEq, Prod.mk.injEq] at h
        obtain ⟨h1, h2, h3⟩ := h
        subst h1
        subst h2
        subst h3
        exact ⟨fun _ => ⟨rfl, rfl⟩, fun hc => absurd hc (by simp)⟩
      · simp only [hv] at h
        by_cases hid : u.id = selected
        · rw [if_pos hid] at h
          rw [Prod.mk.injEq, Prod.mk.injEq] at h
          obtain ⟨h1, h2, h3⟩ := h
          subst h1
          subst h2
          subst h3
          refine ⟨fun hne => absurd rfl hne, fun _ => ⟨bundle, u, rfl, hv, hid, rfl, rfl⟩⟩
        · rw [if_neg hid] at h
          rw [Prod.mk.injEq, Prod.mk.injEq] at h
          obtain ⟨h1, h2, h3⟩ := h
          subst h1
          subst h2
          subst h3
          exact ⟨fun _ => ⟨rfl, rfl⟩, fun hc => absurd hc (by simp)⟩

/-- Witness for C2: refreshing account `"A"` against a stub browser flow
that authenticates as account `"B"` yields the wrong-account outcome and
leaves the store and keyring unchanged. -/
theorem C2_witness :
    refresh_attempt (Env.mk false false false none (fun _ => none))
      (fun _ => ApiResult.resp 200 (some (UserJson.mk "B" none))) 0
      [("A", SessionRecord.mk "ca" 5 "A Co" "browser" none none)] "A"
      (some [("shipping_manager_session", "x")]) =
      (.wrongAccount, Env.mk false false false none (fun _ => none),
        [("A", SessionRecord.mk "ca" 5 "A Co" "browser" none none)]) :=
  (C2_refresh_account_mismatch (Env.mk false false false none (fun _ => none))
    (fun _ => ApiResult.resp 200 (some (UserJson.mk "B" none))) 0
    [("A", SessionRecord.mk "ca" 5 "A Co" "browser" none none)] "A"
    (some [("shipping_manager_session", "x")])).1
    [("shipping_manager_session", "x")] rfl
    (Or.inr ⟨UserJson.mk "B" none, by decide, by decide⟩)

/-- C7 counterexample: with one stored live session, the operator
cancelling the session selection (the selector collaborator returning
nothing) makes the process exit with code 0 and nothing on the primary
output stream — not with code 1 as the claim states. -/
theorem C7_counterexample :
    validate_all_sessions (Env.mk false false false none (fun _ => none))
      (fun _ => ApiResult.resp 200 (some (UserJson.mk "1" none)))
      [("1", SessionRecord.mk "a" 5 "A" "browser" none none)] ≠ [] ∧
    (main (Env.mk false false false none (fun _ => none))
      (fun _ => ApiResult.resp 200 (some (UserJson.mk "1" none))) 0
      [("1", SessionRecord.mk "a" 5 "A" "browser" none none)] [none] []).1 =
      .cancelled ∧
    exitCode .cancelled = some 0 ∧ (some 0 : Option Nat) ≠ some 1 := by
  refine ⟨by decide, by decide, rfl, by decide⟩

/-- C7 amended: run as a process, success exits with code 0 and the
chosen account id as the only content of the primary output stream;
operator cancellation of the session selection also exits with code 0
(with an empty primary stream); every other failure case exits with code
1 (with an empty primary stream). -/
theorem C7_amended_exit_codes (e : Env) (remote : Remote) (now : Nat) (st : Store)
    (script : List (Option SelResult)) (bl : List (Option (List (String × String)))) :
    (∀ id, exitCode (.success id) = some 0 ∧ stdoutOut (.success id) = some id) ∧
    (exitCode .cancelled = some 0 ∧ stdoutOut .cancelled = none) ∧
    (exitCode .failure = some 1 ∧ stdoutOut .failure = none) ∧
    ((validate_all_sessions e remote st ≠ [] ∨
      get_expired_sessions_with_methods e remote st ≠ []) →
      main e remote now st (none :: script) bl = (.cancelled, e, st)) := by
  refine ⟨fun id => ⟨rfl, rfl⟩, ⟨rfl, rfl⟩, ⟨rfl, rfl⟩, ?_⟩
  intro hne
  unfold main mainLoop
  rw [if_neg ?_]
  · rintro ⟨h1, h2⟩
    rcases hne with hne | hne
    · exact hne (List.length_eq_zero.mp h1)
    · exact hne (List.length_eq_zero.mp h2)

/-- Witness for the amended C7: a store with one live session where the
selector cancels immediately. -/
theorem C7_amended_witness :
    (validate_all_sessions (Env.mk false false false none (fun _ => none))
      (fun _ => ApiResult.resp 200 (some (UserJson.mk "1" none)))
      [("1", SessionRecord.mk "a" 5 "A" "browser" none none)] ≠ [] ∨
     get_expired_sessions_with_methods (Env.mk false false false none (fun _ => none))
      (fun _ => ApiResult.resp 200 (some (UserJson.mk "1" none)))
      [("1", SessionRecord.mk "a" 5 "A" "browser" none none)] ≠ []) ∧
    main (Env.mk false false false none (fun _ => none))
      (fun _ => ApiResult.resp 200 (some (UserJson.mk "1" none))) 0
      [("1", SessionRecord.mk "a" 5 "A" "browser" none none)] [none] [] =
      (.cancelled, Env.mk false false false none (fun _ => none),
        [("1", SessionRecord.mk "a" 5 "A" "browser" none none)]) :=
  ⟨Or.inl (by decide),
    (C7_amended_exit_codes (Env.mk false false false none (fun _ => none))
      (fun _ => ApiResult.resp 200 (some (UserJson.mk "1" none))) 0
      [("1", SessionRecord.mk "a" 5 "A" "browser" none none)] [] []).2.2.2
      (Or.inl (by decide))⟩

end GetSession
